import Mathlib

/-!
# EtherGuard-VPN supernode (`main_super.go`): a shallow embedding

The Go program keeps its state in one module-level record (`httpobj`); here that
record is passed explicitly.  Go maps are finite association lists with unique
keys (`AList`); a `nil` pointer stored in a map is `none`; a run-time panic is
the error side of `Except Panic`.  Code that lives in other packages of the
repository (`device`, `path`, `mtypes`, the HTTP handlers) is taken as a
parameter (`Types`, `Ext` below).  One handled event and one push call read the
clock once (`now`); the `SendPacket` calls a function makes are returned as a
list, in order.
-/

namespace EtherGuard

/-! ## Basic types of `mtypes` as `main_super.go` uses them -/

/-- Go `mtypes.Vertex`: an unsigned node id. -/
abbrev Vertex := Nat

/-- A Go `map[K]V`: finitely many entries, keys unique. -/
abbrev GoMap (K : Type) (V : Type) := AList (fun _ : K => V)

/-- A byte string (`[]byte`). -/
abbrev Bytes := List Nat

/-- A `float64` as far as the program looks at it: the program only compares
such values, with `0` and with each other.  A value is NaN, a finite number or
an infinity (`inf true` is the negative one). -/
inductive Float64 where
  | nan : Float64
  | num (q : ℚ) : Float64
  | inf (neg : Bool) : Float64
  deriving DecidableEq, Repr

/-- Go `x < 0` on a `float64` (false on NaN). -/
def Float64.ltZero : Float64 → Bool
  | .nan => false
  | .num q => decide (q < 0)
  | .inf neg => neg

/-- Go `x >= 0` on a `float64` (false on NaN). -/
def Float64.geZero : Float64 → Bool
  | .nan => false
  | .num q => decide (0 ≤ q)
  | .inf neg => !neg

/-- Go `x < y` on two `float64` (false when either is NaN). -/
def Float64.lt : Float64 → Float64 → Bool
  | .nan, _ => false
  | _, .nan => false
  | .num a, .num b => decide (a < b)
  | .num _, .inf neg => !neg
  | .inf neg, .num _ => neg
  | .inf n1, .inf n2 => n1 && !n2

/-- Go `x <= y` on two `float64` (false when either is NaN). -/
def Float64.le : Float64 → Float64 → Bool
  | .nan, _ => false
  | _, .nan => false
  | .num a, .num b => decide (a ≤ b)
  | .num _, .inf neg => !neg
  | .inf neg, .num _ => neg
  | .inf n1, .inf n2 => n1 || !n2

/-- The run-time faults the embedded code can raise. -/
inductive Panic where
  | nilDeref : Panic
  deriving DecidableEq, Repr

/-- Go `mtypes.SuperPeerInfo`, the fields `main_super.go` reads or writes. -/
structure SuperPeerInfo where
  NodeID : Vertex
  Name : String
  PubKey : String
  PSKey : String
  AdditionalCost : Float64
  deriving DecidableEq, Repr

/-- The zero value of `SuperPeerInfo`, which a Go map read yields on a miss. -/
def SuperPeerInfo.zero : SuperPeerInfo :=
  { NodeID := 0, Name := "", PubKey := "", PSKey := "", AdditionalCost := .num 0 }

/-- Go `mtypes.NextHopTable = map[Vertex]map[Vertex]*Vertex`; a stored `nil`
pointer is `none`. -/
abbrev NextHopTable := GoMap Vertex (GoMap Vertex (Option Vertex))

/-! ## `checkNhTable` (lines 33-61) -/

/-- The three `errors.New` results of `checkNhTable`, by the place that returns
them (the Go messages are formatted text). -/
inductive NhError where
  | notInPeerList (id1 id2 : Vertex) (next : Vertex) : NhError
  | entryNotFound (id1 id2 : Vertex) : NhError
  | rowNotFound (id1 : Vertex) : NhError
  deriving DecidableEq, Repr

/-- Lines 34-37: `allpeer[peer1.NodeID] = true` for every peer. -/
def checkNhTable.allpeer (peers : List SuperPeerInfo) : GoMap Vertex Bool :=
  peers.foldl (fun m peer1 => AList.insert peer1.NodeID true m) ∅

/-- Lines 39-58: the inner loop over `peer2` for a fixed `peer1`.  The result
`none` means the loop ran to its end, `some e` that it returned the error `e`. -/
def checkNhTable.inner (NhTable : NextHopTable) (allpeer : GoMap Vertex Bool)
    (peer1 : SuperPeerInfo) : List SuperPeerInfo → Except Panic (Option NhError)
  | [] => .ok none
  | peer2 :: rest =>
    if peer1.NodeID = peer2.NodeID then
      checkNhTable.inner NhTable allpeer peer1 rest
    else
      let id1 := peer1.NodeID
      let id2 := peer2.NodeID
      match NhTable.lookup id1 with
      | some dst =>
        match dst.lookup id2 with
        | some next =>
          match next with
          | none => .error Panic.nilDeref
          | some nextv =>
            match allpeer.lookup nextv with
            | some _ => checkNhTable.inner NhTable allpeer peer1 rest
            | none => .ok (some (NhError.notInPeerList id1 id2 nextv))
        | none => .ok (some (NhError.entryNotFound id1 id2))
      | none => .ok (some (NhError.rowNotFound id1))

/-- Lines 38-59: the outer loop over `peer1`. -/
def checkNhTable.outer (NhTable : NextHopTable) (allpeer : GoMap Vertex Bool)
    (peers : List SuperPeerInfo) : List SuperPeerInfo → Except Panic (Option NhError)
  | [] => .ok none
  | peer1 :: rest =>
    match checkNhTable.inner NhTable allpeer peer1 peers with
    | .error p => .error p
    | .ok (some e) => .ok (some e)
    | .ok none => checkNhTable.outer NhTable allpeer peers rest

/-- Go `checkNhTable`: `.ok none` is Go's `nil` error, `.ok (some e)` a returned
error, `.error` a panic. -/
def checkNhTable (NhTable : NextHopTable) (peers : List SuperPeerInfo) :
    Except Panic (Option NhError) :=
  checkNhTable.outer NhTable (checkNhTable.allpeer peers) peers peers

/-- The closure property `checkNhTable` looks for: every ordered pair of roster
peers with different node ids has an entry whose value is a roster node id. -/
def NhClosed (NhTable : NextHopTable) (peers : List SuperPeerInfo) : Prop :=
  ∀ p1 ∈ peers, ∀ p2 ∈ peers, p1.NodeID ≠ p2.NodeID →
    ∃ row nextv, NhTable.lookup p1.NodeID = some row ∧
      row.lookup p2.NodeID = some (some nextv) ∧ ∃ p ∈ peers, p.NodeID = nextv

/-- No inner map of the table stores a `nil` next-hop pointer. -/
def NhNonNull (NhTable : NextHopTable) : Prop :=
  ∀ s row d, NhTable.lookup s = some row → row.lookup d ≠ some none


/-- The table and the roster of `getExampleSuperConf` (lines 118-143). -/
def exampleNextHopTable : NextHopTable :=
  AList.insert 1 (AList.insert 2 (some 2) ∅) (AList.insert 2 (AList.insert 1 (some 1) ∅) ∅)

/-- The two peers of `getExampleSuperConf` (lines 128-143). -/
def examplePeers : List SuperPeerInfo :=
  [ { NodeID := 1, Name := "Node_01", PubKey := "ZqzLVSbXzjppERslwbf2QziWruW3V/UIx9oqwU8Fn3I=",
      PSKey := "iPM8FXfnHVzwjguZHRW9bLNY+h7+B1O2oTJtktptQkI=", AdditionalCost := .num 10 },
    { NodeID := 2, Name := "Node_02", PubKey := "dHeWQtlTPQGy87WdbUARS4CtwVaR2y7IQ1qcX4GKSXk=",
      PSKey := "juJMQaGAaeSy8aDsXSKNsPZv/nFiPj4h/1G70tGYygs=", AdditionalCost := .num 10 } ]

/-- A decidable form of `NhNonNull`: every stored next hop is a non-nil pointer. -/
def nhNonNullCheck (NhTable : NextHopTable) : Bool :=
  NhTable.entries.all (fun r => r.2.entries.all (fun e => e.2.isSome))

/-! ## The state record `httpobj` and the messages -/

/-- Go `time.Time`, read as nanoseconds on one clock; the zero `time.Time{}` is `0`. -/
abbrev Time := Int

/-- Go `time.Duration` (nanoseconds). -/
abbrev Duration := Int

/-- Go `mtypes.JWTSecret`, a fixed-size byte array. -/
abbrev JWTSecret := Bytes

/-- The zero value `mtypes.JWTSecret{}`. -/
def JWTSecret.zero : JWTSecret := List.replicate 32 0

/-- Go `uint16(n)`. -/
def uint16 (n : Nat) : Nat := n % 65536

/-- The types that belong to packages outside `main_super.go`; the embedded code
only hands their values around. -/
structure Types where
  /-- State of a `*device.Device`. -/
  Device : Type
  /-- A non-nil `*device.Peer`. -/
  Peer : Type
  /-- State of the `*path.IG` graph. -/
  Graph : Type
  /-- The roster snapshot `mtypes.API_Peers`. -/
  API_Peers : Type

/-- Go `PeerState` (the EdgeRecord): the atomic cells of one admitted peer. -/
structure PeerState where
  NhTableState : String
  PeerInfoState : String
  SuperParamState : String
  SuperParamStateClient : String
  JETSecret : JWTSecret
  httpPostCount : Nat
  LastSeen : Time
  deriving DecidableEq, Repr

/-- Go `HttpPeerLocalIP`; `main_super.go` only stores its zero value. -/
structure HttpPeerLocalIP where
  deriving DecidableEq, Repr

/-- Go `mtypes.API_SuperParams`. -/
structure API_SuperParams where
  SendPingInterval : Float64
  HttpPostInterval : Float64
  PeerAliveTimeout : Float64
  AdditionalCost : Float64
  deriving DecidableEq, Repr

/-- The fields of `mtypes.SuperConfig` that the embedded functions read. -/
structure SuperConfig where
  NodeName : String
  PrivKeyV4 : String
  PrivKeyV6 : String
  RePushConfigInterval : Float64
  HttpPostInterval : Float64
  PeerAliveTimeout : Float64
  SendPingInterval : Float64
  StaticMode : Bool
  NextHopTable : NextHopTable
  Peers : List SuperPeerInfo

/-- The `Action` values of `mtypes.ServerUpdateMsg` used here. -/
inductive Action where
  | UpdateNhTable | UpdatePeer | UpdateSuperParams | Shutdown
  deriving DecidableEq, Repr

/-- Go `mtypes.ServerUpdateMsg`. -/
structure ServerUpdateMsg where
  Node_id : Vertex
  Action : Action
  Code : Int
  Params : String
  deriving DecidableEq, Repr

/-- Go `mtypes.RegisterMsg`. -/
structure RegisterMsg where
  Node_id : Vertex
  Version : String
  JWTSecret : JWTSecret
  HttpPostCount : Nat
  NhStateHash : String
  PeerStateHash : String
  SuperParamStateHash : String
  deriving DecidableEq, Repr

/-- Go `mtypes.PongMsg`. -/
structure PongMsg where
  RequestID : Nat
  Src_nodeID : Vertex
  Dst_nodeID : Vertex
  Timediff : Duration
  TimeToAlive : Float64
  AdditionalCost : Float64
  deriving DecidableEq, Repr

/-- The header that `path.NewEgHeader` lays over the first `EgHeaderLen` bytes of
a buffer, as the four fields its setters write. -/
structure EgHeader where
  Src : Vertex
  Dst : Vertex
  TTL : Nat
  PacketLength : Nat
  deriving DecidableEq, Repr

/-- The header of a freshly made (zeroed) buffer. -/
def EgHeader.zero : EgHeader := { Src := 0, Dst := 0, TTL := 0, PacketLength := 0 }

def EgHeader.SetSrc (h : EgHeader) (v : Vertex) : EgHeader := { h with Src := v }

def EgHeader.SetDst (h : EgHeader) (v : Vertex) : EgHeader := { h with Dst := v }

def EgHeader.SetTTL (h : EgHeader) (t : Nat) : EgHeader := { h with TTL := t }

def EgHeader.SetPacketLength (h : EgHeader) (n : Nat) : EgHeader := { h with PacketLength := n }

/-- The buffer `buf`: the header bytes followed by a copy of `body`. -/
structure Packet where
  header : EgHeader
  body : Bytes
  deriving DecidableEq, Repr

/-- The two devices. -/
inductive Family where
  | v4 | v6
  deriving DecidableEq, Repr

/-- One call `device.SendPacket(peer, path.ServerUpdate, buf, ...)`: on which
device, for which public-key string the peer was looked up, the looked-up peer
(`none` is a nil pointer) and the buffer. -/
structure Sent (T : Types) where
  family : Family
  pkstr : String
  peer : Option T.Peer
  packet : Packet

/-- The module-level record `httpobj`. -/
structure HttpObj (T : Types) where
  http_sconfig : SuperConfig
  http_graph : T.Graph
  http_device4 : T.Device
  http_device6 : T.Device
  http_HashSalt : Bytes
  http_NhTable_Hash : String
  http_PeerInfo_hash : String
  http_NhTableStr : Bytes
  http_PeerInfo : T.API_Peers
  http_PeerID2Info : GoMap Vertex SuperPeerInfo
  http_PeerState : GoMap String PeerState
  http_PeerIPs : GoMap String HttpPeerLocalIP

/-- The device of an address family. -/
def HttpObj.device {T : Types} (st : HttpObj T) : Family → T.Device
  | .v4 => st.http_device4
  | .v6 => st.http_device6

/-- What `main_super.go` calls in other packages.  A Go function that returns
`(x, err)` returns the pair here, `err` being `none` for nil.  Functions that read
the clock take the time as an argument. -/
structure Ext (T : Types) where
  /-- Go `mtypes.Special_NodeID`. -/
  Special_NodeID : Vertex
  /-- Go `mtypes.SuperNodeMessage`. -/
  SuperNodeMessage : Vertex
  /-- Go `mtypes.S2TD`: seconds to a duration. -/
  S2TD : Float64 → Duration
  /-- Go `device.Str2PubKey`. -/
  Str2PubKey : String → Bytes × Option String
  /-- Go `device.Str2PSKey`. -/
  Str2PSKey : String → Bytes × Option String
  /-- Go `Device.NewPeer(pk, id, isSuper)`: the device afterwards and the error. -/
  NewPeer : T.Device → Bytes → Vertex → Bool → T.Device × Option String
  /-- The assignment `peer.StaticConn = b` on the peer just created for `pk`. -/
  SetStaticConn : T.Device → Bytes → Bool → T.Device
  /-- Go `peer.SetPSK(psk)` on the peer just created for `pk`. -/
  SetPSK : T.Device → Bytes → Bytes → T.Device
  /-- Go `Device.LookupPeerByStr`; `none` is nil. -/
  LookupPeerByStr : T.Device → String → Option T.Peer
  /-- Go `Peer.GetEndpointDstStr`. -/
  GetEndpointDstStr : T.Peer → String
  /-- Go `Device.RemovePeerByID`. -/
  RemovePeerByID : T.Device → Vertex → T.Device
  /-- Go `IG.UpdateLatency(src, dst, val, TimeToAlive, SuperAdditionalCost,
  recalculate, checkchange)`. -/
  UpdateLatency : T.Graph → Time → Vertex → Vertex → Duration → Float64 → Float64 → Bool → Bool →
    Bool × T.Graph
  /-- Go `IG.CheckAnyShouldUpdate`. -/
  CheckAnyShouldUpdate : T.Graph → Time → Bool × T.Graph
  /-- Go `IG.RecalculateNhTable`. -/
  RecalculateNhTable : T.Graph → Time → Bool → Bool × T.Graph
  /-- Go `IG.GetNHTable`. -/
  GetNHTable : T.Graph → Time → Bool → NextHopTable × T.Graph
  /-- Go `IG.RemoveVirt`. -/
  RemoveVirt : T.Graph → Vertex → Bool → Bool → T.Graph
  /-- Go `json.Marshal` of a next-hop table (its error is discarded by the caller). -/
  json_Marshal_NhTable : NextHopTable → Bytes
  /-- Go `json.Marshal` of an `API_SuperParams` (its error is discarded by the caller). -/
  json_Marshal_SuperParams : API_SuperParams → Bytes
  /-- Go `md5.Sum`. -/
  md5_Sum : Bytes → Bytes
  /-- Go `hex.EncodeToString`. -/
  hex_EncodeToString : Bytes → String
  /-- Go `mtypes.GetByte`. -/
  GetByte : ServerUpdateMsg → Bytes × Option String
  /-- Modelled from the spec: `get_api_peers` (the spec's `snapshot_roster`) is
  defined outside `main_super.go`; by the spec it serialises the current roster,
  hashes it with the salt and reports whether the hash differs from the one
  passed in.  It reads the state and returns `(roster, hash, changed)`. -/
  get_api_peers : HttpObj T → Time → String → T.API_Peers × String × Bool

/-- A read `m[k]` of a Go map whose values are structs: the zero value on a miss. -/
def lookupInfo (m : GoMap Vertex SuperPeerInfo) (k : Vertex) : SuperPeerInfo :=
  match m.lookup k with
  | some v => v
  | none => SuperPeerInfo.zero

/-- The salted hash `hex.EncodeToString(md5.Sum(append(b, salt...)))`. -/
def saltedHash {T : Types} (ext : Ext T) (b : Bytes) (salt : Bytes) : String :=
  ext.hex_EncodeToString (ext.md5_Sum (b ++ salt))


/-! ## Peer admission: `super_peeradd`, `super_peerdel`, `super_peerdel_notify` -/

/-- The errors `super_peeradd` returns, by the `fmt.Errorf` that builds them. -/
inductive PeerAddError where
  | decodeBase64 (err : String) : PeerAddError
  | createPeer (err : String) : PeerAddError
  deriving DecidableEq, Repr

/-- Lines 324-340 and 341-357 of `super_peeradd`: the same block, once for
`PrivKeyV4` and `http_device4` and once for `PrivKeyV6` and `http_device6`.
Returns the device afterwards and the error the block returns with, if any. -/
def super_peeradd.family {T : Types} (ext : Ext T) (PrivKey : String) (dev : T.Device)
    (pk : Bytes) (peerconf : SuperPeerInfo) : T.Device × Option PeerAddError :=
  if PrivKey ≠ "" then
    let pskr : Bytes × Option String :=
      if peerconf.PSKey ≠ "" then ext.Str2PSKey peerconf.PSKey else (List.replicate 32 0, none)
    match pskr.2 with
    | some err => (dev, some (PeerAddError.decodeBase64 err))
    | none =>
      let psk := pskr.1
      match ext.NewPeer dev pk peerconf.NodeID false with
      | (dev1, some err) => (dev1, some (PeerAddError.createPeer err))
      | (dev1, none) =>
        let dev2 := ext.SetStaticConn dev1 pk false
        let dev3 := if peerconf.PSKey ≠ "" then ext.SetPSK dev2 pk psk else dev2
        (dev3, none)
  else
    (dev, none)

/-- Go `super_peeradd` (lines 318-383): the state afterwards and the returned error
(`none` is nil). -/
def super_peeradd {T : Types} (ext : Ext T) (st : HttpObj T) (peerconf : SuperPeerInfo) :
    HttpObj T × Option PeerAddError :=
  match ext.Str2PubKey peerconf.PubKey with
  | (_, some err) => (st, some (PeerAddError.decodeBase64 err))
  | (pk, none) =>
    match super_peeradd.family ext st.http_sconfig.PrivKeyV4 st.http_device4 pk peerconf with
    | (dev4, some e) => ({ st with http_device4 := dev4 }, some e)
    | (dev4, none) =>
      let st4 := { st with http_device4 := dev4 }
      match super_peeradd.family ext st4.http_sconfig.PrivKeyV6 st4.http_device6 pk peerconf with
      | (dev6, some e) => ({ st4 with http_device6 := dev6 }, some e)
      | (dev6, none) =>
        let st6 := { st4 with http_device6 := dev6 }
        let st7 := { st6 with
          http_PeerID2Info := AList.insert peerconf.NodeID peerconf st6.http_PeerID2Info }
        let SuperParams : API_SuperParams :=
          { SendPingInterval := st7.http_sconfig.SendPingInterval
            HttpPostInterval := st7.http_sconfig.HttpPostInterval
            PeerAliveTimeout := st7.http_sconfig.PeerAliveTimeout
            AdditionalCost := peerconf.AdditionalCost }
        let SuperParamStr := ext.json_Marshal_SuperParams SuperParams
        let new_hash_str := saltedHash ext SuperParamStr st7.http_HashSalt
        let PS : PeerState :=
          { NhTableState := ""
            PeerInfoState := ""
            SuperParamState := new_hash_str
            SuperParamStateClient := ""
            JETSecret := JWTSecret.zero
            httpPostCount := 0
            LastSeen := 0 }
        ({ st7 with
            http_PeerState := AList.insert peerconf.PubKey PS st7.http_PeerState
            http_PeerIPs := AList.insert peerconf.PubKey {} st7.http_PeerIPs }, none)

/-- Go `super_peerdel` (lines 385-395): the state afterwards and, when the goroutine
`super_peerdel_notify(toDelete, PubKey)` is started, its two arguments. -/
def super_peerdel {T : Types} (st : HttpObj T) (toDelete : Vertex) :
    HttpObj T × Option (Vertex × String) :=
  match st.http_PeerID2Info.lookup toDelete with
  | none => (st, none)
  | some info =>
    let PubKey := info.PubKey
    ({ st with
        http_PeerState := AList.erase PubKey st.http_PeerState
        http_PeerIPs := AList.erase PubKey st.http_PeerIPs
        http_PeerID2Info := AList.erase toDelete st.http_PeerID2Info },
      some (toDelete, PubKey))

/-- Go `int(syscall.ENOENT)`. -/
def ENOENT : Int := 2

/-- Lines 398-403: the message of the shutdown notifier. -/
def super_peerdel_notify.msg (toDelete : Vertex) : ServerUpdateMsg :=
  { Node_id := toDelete
    Action := Action.Shutdown
    Code := ENOENT
    Params := "You've been removed from supernode." }

/-- Lines 405-412: the buffer built in one round of the shutdown notifier. -/
def super_peerdel_notify.buf {T : Types} (ext : Ext T) (toDelete : Vertex) : Packet :=
  let body := (ext.GetByte (super_peerdel_notify.msg toDelete)).1
  let header := EgHeader.zero
  let header := header.SetSrc ext.SuperNodeMessage
  let header := header.SetTTL 0
  let header := header.SetPacketLength (uint16 body.length)
  let header := header.SetDst toDelete
  { header := header, body := body }

/-- Lines 404-420: the rounds of the shutdown notifier that are still to run
(the sleeps between them are left out). -/
def super_peerdel_notify.loop {T : Types} (ext : Ext T) (st : HttpObj T) (toDelete : Vertex)
    (PubKey : String) : Nat → List (Sent T)
  | 0 => []
  | n + 1 =>
    let buf := super_peerdel_notify.buf ext toDelete
    let peer4 := ext.LookupPeerByStr st.http_device4 PubKey
    let peer6 := ext.LookupPeerByStr st.http_device6 PubKey
    { family := Family.v4, pkstr := PubKey, peer := peer4, packet := buf } ::
    { family := Family.v6, pkstr := PubKey, peer := peer6, packet := buf } ::
    super_peerdel_notify.loop ext st toDelete PubKey n

/-- Go `super_peerdel_notify` (lines 397-424), run on one state without
interleaving: the state afterwards and the `SendPacket` calls in order. -/
def super_peerdel_notify {T : Types} (ext : Ext T) (st : HttpObj T) (toDelete : Vertex)
    (PubKey : String) : HttpObj T × List (Sent T) :=
  let sent := super_peerdel_notify.loop ext st toDelete PubKey 10
  ({ st with
      http_device4 := ext.RemovePeerByID st.http_device4 toDelete
      http_device6 := ext.RemovePeerByID st.http_device6 toDelete
      http_graph := ext.RemoveVirt st.http_graph toDelete true false }, sent)

/-! ## The push engine: `PushNhTable`, `PushPeerinfo`, `PushServerParams` -/

/-- The header written in lines 539-543 (and 574-578, 616-620). -/
def pushHeader {T : Types} (ext : Ext T) (body : Bytes) : EgHeader :=
  let header := EgHeader.zero
  let header := header.SetDst ext.SuperNodeMessage
  let header := header.SetPacketLength (uint16 body.length)
  let header := header.SetSrc ext.SuperNodeMessage
  let header := header.SetTTL 0
  header

/-- Go `peerstate.LastSeen.Load().(time.Time).Add(mtypes.S2TD(PeerAliveTimeout)).After(time.Now())`. -/
def isAlive {T : Types} (ext : Ext T) (st : HttpObj T) (now : Time) (peerstate : PeerState) :
    Bool :=
  decide (peerstate.LastSeen + ext.S2TD st.http_sconfig.PeerAliveTimeout > now)

/-- Lines 551-556: the two sends of `PushNhTable` for one peer, each guarded by
`peer != nil && peer.GetEndpointDstStr() != ""`. -/
def PushNhTable.sendOne {T : Types} (ext : Ext T) (st : HttpObj T) (buf : Packet)
    (pkstr : String) (fam : Family) : List (Sent T) :=
  match ext.LookupPeerByStr (st.device fam) pkstr with
  | some peer =>
    if ext.GetEndpointDstStr peer ≠ "" then
      [{ family := fam, pkstr := pkstr, peer := some peer, packet := buf }]
    else []
  | none => []

/-- Lines 545-558: the loop of `PushNhTable` over the entries of `http_PeerState`. -/
def PushNhTable.loop {T : Types} (ext : Ext T) (st : HttpObj T) (now : Time) (force : Bool)
    (buf : Packet) : List (Sigma fun _ : String => PeerState) → List (Sent T)
  | [] => []
  | ⟨pkstr, peerstate⟩ :: rest =>
    if ¬ isAlive ext st now peerstate then
      PushNhTable.loop ext st now force buf rest
    else if force = true ∨ peerstate.NhTableState ≠ st.http_NhTable_Hash then
      PushNhTable.sendOne ext st buf pkstr Family.v4 ++
        (PushNhTable.sendOne ext st buf pkstr Family.v6 ++
          PushNhTable.loop ext st now force buf rest)
    else
      PushNhTable.loop ext st now force buf rest

/-- Go `PushNhTable` (lines 526-559): the `SendPacket` calls it makes. -/
def PushNhTable {T : Types} (ext : Ext T) (st : HttpObj T) (now : Time) (force : Bool) :
    List (Sent T) :=
  match ext.GetByte
      { Node_id := ext.SuperNodeMessage
        Action := Action.UpdateNhTable
        Code := 0
        Params := st.http_NhTable_Hash } with
  | (_, some _) => []
  | (body, none) =>
    let buf : Packet := { header := pushHeader ext body, body := body }
    PushNhTable.loop ext st now force buf st.http_PeerState.entries

/-- Lines 586-591 (and 623-628): the send of `PushPeerinfo` and of
`PushServerParams` on one device, guarded by `peer != nil`. -/
def PushPeerinfo.sendOne {T : Types} (ext : Ext T) (st : HttpObj T) (buf : Packet)
    (pkstr : String) (fam : Family) : List (Sent T) :=
  match ext.LookupPeerByStr (st.device fam) pkstr with
  | some peer => [{ family := fam, pkstr := pkstr, peer := some peer, packet := buf }]
  | none => []

/-- Lines 580-593: the loop of `PushPeerinfo`. -/
def PushPeerinfo.loop {T : Types} (ext : Ext T) (st : HttpObj T) (now : Time) (force : Bool)
    (buf : Packet) : List (Sigma fun _ : String => PeerState) → List (Sent T)
  | [] => []
  | ⟨pkstr, peerstate⟩ :: rest =>
    if ¬ isAlive ext st now peerstate then
      PushPeerinfo.loop ext st now force buf rest
    else if force = true ∨ peerstate.PeerInfoState ≠ st.http_PeerInfo_hash then
      PushPeerinfo.sendOne ext st buf pkstr Family.v4 ++
        (PushPeerinfo.sendOne ext st buf pkstr Family.v6 ++
          PushPeerinfo.loop ext st now force buf rest)
    else
      PushPeerinfo.loop ext st now force buf rest

/-- Go `PushPeerinfo` (lines 561-594): the `SendPacket` calls it makes. -/
def PushPeerinfo {T : Types} (ext : Ext T) (st : HttpObj T) (now : Time) (force : Bool) :
    List (Sent T) :=
  match ext.GetByte
      { Node_id := ext.SuperNodeMessage
        Action := Action.UpdatePeer
        Code := 0
        Params := st.http_PeerInfo_hash } with
  | (_, some _) => []
  | (body, none) =>
    let buf : Packet := { header := pushHeader ext body, body := body }
    PushPeerinfo.loop ext st now force buf st.http_PeerState.entries

/-- Lines 598-630: the loop of `PushServerParams`; the `return` on a `GetByte`
error ends the loop. -/
def PushServerParams.loop {T : Types} (ext : Ext T) (st : HttpObj T) (now : Time)
    (force : Bool) : List (Sigma fun _ : String => PeerState) → List (Sent T)
  | [] => []
  | ⟨pkstr, peerstate⟩ :: rest =>
    if ¬ isAlive ext st now peerstate then
      PushServerParams.loop ext st now force rest
    else if force = true ∨ peerstate.SuperParamState ≠ peerstate.SuperParamStateClient then
      match ext.GetByte
          { Node_id := ext.SuperNodeMessage
            Action := Action.UpdateSuperParams
            Code := 0
            Params := peerstate.SuperParamState } with
      | (_, some _) => []
      | (body, none) =>
        let buf : Packet := { header := pushHeader ext body, body := body }
        PushPeerinfo.sendOne ext st buf pkstr Family.v4 ++
          (PushPeerinfo.sendOne ext st buf pkstr Family.v6 ++
            PushServerParams.loop ext st now force rest)
    else
      PushServerParams.loop ext st now force rest

/-- Go `PushServerParams` (lines 596-631): the `SendPacket` calls it makes. -/
def PushServerParams {T : Types} (ext : Ext T) (st : HttpObj T) (now : Time) (force : Bool) :
    List (Sent T) :=
  PushServerParams.loop ext st now force st.http_PeerState.entries


/-! ## The event dispatcher: `Event_server_event_hendler` -/

/-- What handling one Register event leaves behind: the state, the three local
flags, the flag returned by `get_api_peers`, and the `SendPacket` calls. -/
structure RegisterOut (T : Types) where
  state : HttpObj T
  should_push_peer : Bool
  should_push_nh : Bool
  should_push_superparams : Bool
  peer_state_changed : Bool
  sent : List (Sent T)

/-- Lines 437-451: the stores into the record that `http_PeerState[PubKey]`
points to, and the three flags `(should_push_nh, should_push_peer,
should_push_superparams)`. -/
def Event_server_register.update (now : Time) (reg_msg : RegisterMsg) (ps : PeerState) :
    PeerState × Bool × Bool × Bool :=
  let ps := { ps with LastSeen := now }
  let ps := { ps with JETSecret := reg_msg.JWTSecret }
  let ps := { ps with httpPostCount := reg_msg.HttpPostCount }
  let r1 : PeerState × Bool :=
    if ps.NhTableState ≠ reg_msg.NhStateHash then
      ({ ps with NhTableState := reg_msg.NhStateHash }, true)
    else (ps, false)
  let r2 : PeerState × Bool :=
    if r1.1.PeerInfoState ≠ reg_msg.PeerStateHash then
      ({ r1.1 with PeerInfoState := reg_msg.PeerStateHash }, true)
    else (r1.1, false)
  let r3 : PeerState × Bool :=
    if r2.1.SuperParamStateClient ≠ reg_msg.SuperParamStateHash then
      ({ r2.1 with SuperParamStateClient := reg_msg.SuperParamStateHash }, true)
    else (r2.1, false)
  (r3.1, r1.2, r2.2, r3.2)

/-- Lines 433-452 of the `Event_server_register` case: the record updates.
Returns the state and `(should_push_nh, should_push_peer,
should_push_superparams)`.  A nil `http_PeerState[PubKey]` makes the first store
of line 437 panic; otherwise the stores go through that pointer, so the map
keeps its keys and holds the updated record under `PubKey`. -/
def Event_server_register.record {T : Types} (ext : Ext T) (st : HttpObj T) (now : Time)
    (reg_msg : RegisterMsg) : Except Panic (HttpObj T × Bool × Bool × Bool) :=
  let NodeID := reg_msg.Node_id
  let PubKey := (lookupInfo st.http_PeerID2Info NodeID).PubKey
  if reg_msg.Node_id < ext.Special_NodeID then
    match st.http_PeerState.lookup PubKey with
    | none => .error Panic.nilDeref
    | some ps =>
      let r := Event_server_register.update now reg_msg ps
      .ok ({ st with http_PeerState := AList.insert PubKey r.1 st.http_PeerState },
        r.2.1, r.2.2.1, r.2.2.2)
  else
    .ok (st, false, false, false)

/-- Lines 453-464 of the `Event_server_register` case: the roster snapshot and
the pushes. -/
def Event_server_register.push {T : Types} (ext : Ext T) (st1 : HttpObj T) (now : Time)
    (should_push_nh should_push_peer should_push_superparams : Bool) : RegisterOut T :=
  let api := ext.get_api_peers st1 now st1.http_PeerInfo_hash
  let peer_state_changed := api.2.2
  let st2 := { st1 with http_PeerInfo := api.1, http_PeerInfo_hash := api.2.1 }
  let sent1 :=
    if should_push_peer = true ∨ peer_state_changed = true then PushPeerinfo ext st2 now false
    else []
  let sent2 := if should_push_nh = true then PushNhTable ext st2 now false else []
  let sent3 :=
    if should_push_superparams = true then PushServerParams ext st2 now false else []
  { state := st2
    should_push_peer := should_push_peer
    should_push_nh := should_push_nh
    should_push_superparams := should_push_superparams
    peer_state_changed := peer_state_changed
    sent := sent1 ++ (sent2 ++ sent3) }

/-- The `Event_server_register` case of `Event_server_event_hendler` (lines
429-465) for one event; `now` is the clock reading. -/
def Event_server_register {T : Types} (ext : Ext T) (st : HttpObj T) (now : Time)
    (reg_msg : RegisterMsg) : Except Panic (RegisterOut T) :=
  match Event_server_register.record ext st now reg_msg with
  | .error e => .error e
  | .ok r => .ok (Event_server_register.push ext r.1 now r.2.1 r.2.2.1 r.2.2.2)

/-- A call the dispatcher makes on the graph, with its arguments. -/
inductive GraphCall where
  | UpdateLatency (src dst : Vertex) (val : Duration) (TimeToAlive : Float64)
      (SuperAdditionalCost : Float64) (recalculate checkchange : Bool) : GraphCall
  | CheckAnyShouldUpdate : GraphCall
  | RecalculateNhTable (checkchange : Bool) : GraphCall
  | GetNHTable (recalculate : Bool) : GraphCall
  deriving DecidableEq, Repr

/-- What handling one Pong event leaves behind: the state, the local `changed`,
the calls made on the graph in order, and the `SendPacket` calls. -/
structure PongOut (T : Types) where
  state : HttpObj T
  changed : Bool
  graph_calls : List GraphCall
  sent : List (Sent T)

/-- Lines 470-473: the value of `AdditionalCost_use`. -/
def AdditionalCost_use {T : Types} (st : HttpObj T) (pong_msg : PongMsg) : Float64 :=
  let use := (lookupInfo st.http_PeerID2Info pong_msg.Dst_nodeID).AdditionalCost
  if use.ltZero = true then pong_msg.AdditionalCost else use

/-- Lines 469-479: the branch on the two node ids; returns `changed`, the graph
afterwards and the calls made on the graph. -/
def Event_server_pong.graph {T : Types} (ext : Ext T) (st : HttpObj T) (now : Time)
    (pong_msg : PongMsg) : Bool × T.Graph × List GraphCall :=
  if pong_msg.Src_nodeID < ext.Special_NodeID ∧ pong_msg.Dst_nodeID < ext.Special_NodeID then
    let cost := AdditionalCost_use st pong_msg
    let r := ext.UpdateLatency st.http_graph now pong_msg.Src_nodeID pong_msg.Dst_nodeID
      pong_msg.Timediff pong_msg.TimeToAlive cost true true
    (r.1, r.2, [GraphCall.UpdateLatency pong_msg.Src_nodeID pong_msg.Dst_nodeID
      pong_msg.Timediff pong_msg.TimeToAlive cost true true])
  else
    let c := ext.CheckAnyShouldUpdate st.http_graph now
    if c.1 = true then
      let r := ext.RecalculateNhTable c.2 now true
      (r.1, r.2, [GraphCall.CheckAnyShouldUpdate, GraphCall.RecalculateNhTable true])
    else
      (false, c.2, [GraphCall.CheckAnyShouldUpdate])

/-- The `Event_server_pong` case of `Event_server_event_hendler` (lines 466-489)
for one event.  The parameter `graph` of the Go function and `httpobj.http_graph`
are the same graph (line 276). -/
def Event_server_pong {T : Types} (ext : Ext T) (st : HttpObj T) (now : Time)
    (pong_msg : PongMsg) : PongOut T :=
  let g := Event_server_pong.graph ext st now pong_msg
  let changed := g.1
  let st1 := { st with http_graph := g.2.1 }
  if changed = true then
    let t := ext.GetNHTable st1.http_graph now true
    let NhTable := t.1
    let NhTablestr := ext.json_Marshal_NhTable NhTable
    let new_hash_str := saltedHash ext NhTablestr st1.http_HashSalt
    let st2 := { st1 with
      http_graph := t.2
      http_NhTable_Hash := new_hash_str
      http_NhTableStr := NhTablestr }
    { state := st2
      changed := changed
      graph_calls := g.2.2 ++ [GraphCall.GetNHTable true]
      sent := PushNhTable ext st2 now false }
  else
    { state := st1, changed := changed, graph_calls := g.2.2, sent := [] }

/-- The two sentinel events `RoutineTimeoutCheck` puts on the channels in each
round (lines 513-521). -/
def RoutineTimeoutCheck.events {T : Types} (ext : Ext T) : RegisterMsg × PongMsg :=
  ({ Node_id := ext.SuperNodeMessage
     Version := "dummy"
     JWTSecret := JWTSecret.zero
     HttpPostCount := 0
     NhStateHash := ""
     PeerStateHash := ""
     SuperParamStateHash := "" },
   { RequestID := 0
     Src_nodeID := ext.SuperNodeMessage
     Dst_nodeID := ext.SuperNodeMessage
     Timediff := 0
     TimeToAlive := Float64.num 0
     AdditionalCost := Float64.num 0 })


/-! ## Startup: `Super` (lines 148-278) -/

/-- The errors `Super` returns up to line 278, by the statement that returns
them. -/
inductive SuperError where
  | readConfig (err : String) : SuperError
  | nodeNameTooLong (NodeName : String) : SuperError
  | peerAliveTimeout (v : Float64) : SuperError
  | httpPostIntervalNegative (v : Float64) : SuperError
  | httpPostIntervalAboveTimeout (v : Float64) : SuperError
  | sendPingInterval (v : Float64) : SuperError
  | rePushConfigInterval (v : Float64) : SuperError
  | nhTable (e : NhError) : SuperError
  | decodeKey (err : String) : SuperError
  | peerAdd (e : PeerAddError) : SuperError
  | uapi (err : String) : SuperError
  deriving DecidableEq, Repr

/-- Lines 163-180 of `Super`: the checks of the node name and of the four
intervals; `none` when every check is passed.  Go `len(NodeName)` counts bytes,
and Go `a > b` on `float64` is `b < a`. -/
def Super.checkOptions (sconfig : SuperConfig) : Option SuperError :=
  let NodeName := sconfig.NodeName
  if NodeName.utf8ByteSize > 32 then
    some (SuperError.nodeNameTooLong NodeName)
  else if Float64.le sconfig.PeerAliveTimeout (.num 0) = true then
    some (SuperError.peerAliveTimeout sconfig.PeerAliveTimeout)
  else if Float64.lt sconfig.HttpPostInterval (.num 0) = true then
    some (SuperError.httpPostIntervalNegative sconfig.HttpPostInterval)
  else if Float64.lt sconfig.PeerAliveTimeout sconfig.HttpPostInterval = true then
    some (SuperError.httpPostIntervalAboveTimeout sconfig.HttpPostInterval)
  else if Float64.le sconfig.SendPingInterval (.num 0) = true then
    some (SuperError.sendPingInterval sconfig.SendPingInterval)
  else if Float64.le sconfig.RePushConfigInterval (.num 0) = true then
    some (SuperError.rePushConfigInterval sconfig.RePushConfigInterval)
  else
    none

/-- What `Super` calls in other packages between lines 203 and 274, besides
`Ext`. -/
structure SuperEnv (T : Types) where
  /-- The salt `mtypes.RandomStr(32, ...)` of line 207, as bytes. -/
  RandomStr : Bytes
  /-- Go `path.NewGraph(3, true, GraphRecalculateSetting, ...)` (line 214). -/
  NewGraph : SuperConfig → T.Graph
  /-- Go `IG.SetNHTable` (line 215). -/
  SetNHTable : T.Graph → NextHopTable → T.Graph
  /-- Go `device.NewDevice(...)` on a dummy TAP for one family (lines 222-227). -/
  NewDevice : Family → T.Graph → SuperConfig → T.Device
  /-- Go `device.Str2PriKey`. -/
  Str2PriKey : String → Bytes × Option String
  /-- The four calls of lines 234-237 (and 246-249): `SetPrivateKey` and the three
  `IpcSet`. -/
  SetPrivateKey : T.Device → Bytes → SuperConfig → T.Device
  /-- The error of `startUAPI` for one family (lines 264 and 269); `none` is nil. -/
  startUAPI : Family → T.Device → Option String

/-- What a call of `Super` has done when it returns or reaches line 278: the
error it returned (`none` when it went on), the record `httpobj`, the peers
`super_peeradd` was called with, and whether the three goroutines of lines
276-278 were started. -/
structure SuperRun (T : Types) where
  err : Option SuperError
  state : HttpObj T
  peeradd_calls : List SuperPeerInfo
  tasksStarted : Bool

/-- Lines 252-257: `super_peeradd` for every configured peer, stopping at the
first error.  Returns the state, the peers it was called with and the error. -/
def Super.addPeers {T : Types} (ext : Ext T) :
    HttpObj T → List SuperPeerInfo → HttpObj T × List SuperPeerInfo × Option PeerAddError
  | st, [] => (st, [], none)
  | st, peerconf :: rest =>
    match super_peeradd ext st peerconf with
    | (st1, some e) => (st1, [peerconf], some e)
    | (st1, none) =>
      let r := Super.addPeers ext st1 rest
      (r.1, peerconf :: r.2.1, r.2.2)

/-- Lines 228-238 (and 240-250): the private key of one family, when configured. -/
def Super.setKey {T : Types} (env : SuperEnv T) (sconfig : SuperConfig) (PrivKey : String)
    (dev : T.Device) : T.Device × Option SuperError :=
  if PrivKey ≠ "" then
    match env.Str2PriKey PrivKey with
    | (_, some err) => (dev, some (SuperError.decodeKey err))
    | (pk, none) => (env.SetPrivateKey dev pk sconfig, none)
  else
    (dev, none)

/-- Lines 203-278 of `Super`, entered when the options have passed the checks of
lines 163-180. -/
def Super.start {T : Types} (ext : Ext T) (env : SuperEnv T) (st : HttpObj T) (useUAPI : Bool)
    (sconfig : SuperConfig) : Except Panic (SuperRun T) :=
  let graph := env.SetNHTable (env.NewGraph sconfig) st.http_sconfig.NextHopTable
  let st1 := { st with
    http_PeerState := (∅ : GoMap String PeerState)
    http_PeerIPs := (∅ : GoMap String HttpPeerLocalIP)
    http_PeerID2Info := (∅ : GoMap Vertex SuperPeerInfo)
    http_HashSalt := env.RandomStr
    http_graph := graph }
  let static : Except Panic (Option NhError) :=
    if sconfig.StaticMode = true then checkNhTable st1.http_sconfig.NextHopTable sconfig.Peers
    else .ok none
  match static with
  | .error p => .error p
  | .ok (some e) =>
    .ok { err := some (SuperError.nhTable e), state := st1, peeradd_calls := [],
          tasksStarted := false }
  | .ok none =>
    let st2 := { st1 with
      http_device4 := env.NewDevice Family.v4 st1.http_graph sconfig
      http_device6 := env.NewDevice Family.v6 st1.http_graph sconfig }
    match Super.setKey env sconfig sconfig.PrivKeyV4 st2.http_device4 with
    | (dev4, some e) =>
      .ok { err := some e, state := { st2 with http_device4 := dev4 }, peeradd_calls := [],
            tasksStarted := false }
    | (dev4, none) =>
      let st3 := { st2 with http_device4 := dev4 }
      match Super.setKey env sconfig sconfig.PrivKeyV6 st3.http_device6 with
      | (dev6, some e) =>
        .ok { err := some e, state := { st3 with http_device6 := dev6 }, peeradd_calls := [],
              tasksStarted := false }
      | (dev6, none) =>
        let st4 := { st3 with http_device6 := dev6 }
        match Super.addPeers ext st4 sconfig.Peers with
        | (st5, calls, some e) =>
          .ok { err := some (SuperError.peerAdd e), state := st5, peeradd_calls := calls,
                tasksStarted := false }
        | (st5, calls, none) =>
          let uapi : Option String :=
            if useUAPI = true then
              match env.startUAPI Family.v4 st5.http_device4 with
              | some err => some err
              | none => env.startUAPI Family.v6 st5.http_device6
            else none
          match uapi with
          | some err =>
            .ok { err := some (SuperError.uapi err), state := st5, peeradd_calls := calls,
                  tasksStarted := false }
          | none =>
            .ok { err := none, state := st5, peeradd_calls := calls, tasksStarted := true }

/-- Go `Super` (lines 148-278).  `readYaml` is the result of reading the file at
`configPath`: the configuration and the error (`none` is nil).  A panic of
`checkNhTable` ends the call. -/
def Super {T : Types} (ext : Ext T) (env : SuperEnv T) (st : HttpObj T) (useUAPI : Bool)
    (printExample : Bool) (readYaml : SuperConfig × Option String) :
    Except Panic (SuperRun T) :=
  if printExample = true then
    .ok { err := none, state := st, peeradd_calls := [], tasksStarted := false }
  else
    match readYaml with
    | (_, some err) =>
      .ok { err := some (SuperError.readConfig err), state := st, peeradd_calls := [],
            tasksStarted := false }
    | (sconfig, none) =>
      let st0 := { st with http_sconfig := sconfig }
      match Super.checkOptions sconfig with
      | some e => .ok { err := some e, state := st0, peeradd_calls := [], tasksStarted := false }
      | none => Super.start ext env st0 useUAPI sconfig

/-! ## A concrete instance of the outside packages

Used to run the embedded functions on concrete inputs. -/

/-- A sample device: its peers as `(public key, node id, endpoint)`. -/
abbrev SampleDevice := List (Bytes × Vertex × String)

/-- A sample graph: the directed edges with a stored latency. -/
abbrev SampleGraph := List (Vertex × Vertex × Duration)

/-- The sample types. -/
abbrev sampleTypes : Types :=
  { Device := SampleDevice
    Peer := Bytes × Vertex × String
    Graph := SampleGraph
    API_Peers := List (String × Vertex) }

/-- The sample key decoder: the character codes of the string; the empty string
is an error. -/
def sampleStr2Key (s : String) : Bytes × Option String :=
  if s = "" then ([], some "empty key") else (s.toList.map Char.toNat, none)

/-- The sample serialiser of a `ServerUpdateMsg`. -/
def sampleGetByte (m : ServerUpdateMsg) : Bytes × Option String :=
  (m.Node_id :: m.Code.toNat :: m.Params.toList.map Char.toNat, none)

/-- The sample next-hop table of a graph: every stored edge `(s, d)` forwards
from `s` to `d` directly. -/
def sampleNhTable : SampleGraph → NextHopTable
  | [] => ∅
  | (s, d, _) :: rest =>
    let t := sampleNhTable rest
    let row : GoMap Vertex (Option Vertex) :=
      match t.lookup s with
      | some r => r
      | none => ∅
    AList.insert s (AList.insert d (some d) row) t

/-- The sample instance of the outside packages.  Its `S2TD` multiplies by
`time.Second` and truncates towards zero; for NaN and the infinities, where the
Go conversion is implementation-defined, it takes the smallest `int64`. -/
def sampleExt : Ext sampleTypes :=
  { Special_NodeID := 65533
    SuperNodeMessage := 65533
    S2TD := fun x =>
      match x with
      | .nan => -9223372036854775808
      | .num q => Int.tdiv (q.num * 1000000000) q.den
      | .inf _ => -9223372036854775808
    Str2PubKey := sampleStr2Key
    Str2PSKey := sampleStr2Key
    NewPeer := fun (dev : SampleDevice) pk id _ =>
      if dev.any (fun p => decide (p.1 = pk ∨ p.2.1 = id)) then (dev, some "exists")
      else ((pk, id, "") :: dev, none)
    SetStaticConn := fun dev _ _ => dev
    SetPSK := fun dev _ _ => dev
    LookupPeerByStr := fun (dev : SampleDevice) s => dev.find? (fun p => decide (p.1 = (sampleStr2Key s).1))
    GetEndpointDstStr := fun p => p.2.2
    RemovePeerByID := fun (dev : SampleDevice) id => dev.filter (fun p => decide (p.2.1 ≠ id))
    UpdateLatency := fun (g : SampleGraph) _ src dst val _ _ _ _ =>
      (g.all (fun e => decide (¬ (e.1 = src ∧ e.2.1 = dst))),
        (src, dst, val) :: g.filter (fun e => decide (¬ (e.1 = src ∧ e.2.1 = dst))))
    CheckAnyShouldUpdate := fun g _ => (false, g)
    RecalculateNhTable := fun g _ _ => (false, g)
    GetNHTable := fun g _ _ => (sampleNhTable g, g)
    RemoveVirt := fun (g : SampleGraph) v _ _ => g.filter (fun e => decide (e.1 ≠ v ∧ e.2.1 ≠ v))
    json_Marshal_NhTable := fun t =>
      t.entries.flatMap (fun r => r.1 :: r.2.entries.flatMap (fun e => [e.1, e.2.getD 0]))
    json_Marshal_SuperParams := fun _ => [0]
    md5_Sum := fun b => [b.sum % 256]
    hex_EncodeToString := fun b => String.mk (b.map Char.ofNat)
    GetByte := sampleGetByte
    get_api_peers := fun st _ old =>
      let roster := st.http_PeerID2Info.entries.map (fun e => (e.2.PubKey, e.1))
      let h := String.join (roster.map (fun r => r.1))
      (roster, h, decide (h ≠ old)) }

/-- A sample configuration: no own keys, so the devices are not used at admission. -/
def sampleConfigNoKeys : SuperConfig :=
  { NodeName := "NodeSuper"
    PrivKeyV4 := ""
    PrivKeyV6 := ""
    RePushConfigInterval := .num 30
    HttpPostInterval := .num 50
    PeerAliveTimeout := .num 70
    SendPingInterval := .num 15
    StaticMode := false
    NextHopTable := exampleNextHopTable
    Peers := examplePeers }

/-- The sample configuration with the two private keys of `getExampleSuperConf`. -/
def sampleConfig : SuperConfig :=
  { sampleConfigNoKeys with
    PrivKeyV4 := "mL5IW0GuqbjgDeOJuPHBU2iJzBPNKhaNEXbIGwwYWWk="
    PrivKeyV6 := "+EdOKIoBp/EvIusHDsvXhV1RJYbyN3Qr8nxlz35wl3I=" }

/-- The state `Super` sets up before it admits the first peer (lines 203-215):
empty maps, empty devices, an empty graph. -/
def initState (cfg : SuperConfig) : HttpObj sampleTypes :=
  { http_sconfig := cfg
    http_graph := []
    http_device4 := []
    http_device6 := []
    http_HashSalt := [7]
    http_NhTable_Hash := ""
    http_PeerInfo_hash := ""
    http_NhTableStr := []
    http_PeerInfo := []
    http_PeerID2Info := ∅
    http_PeerState := ∅
    http_PeerIPs := ∅ }

/-- A short public-key string for node 1 in the samples. -/
def samplePeer1 : SuperPeerInfo :=
  { NodeID := 1, Name := "Node_01", PubKey := "A", PSKey := "", AdditionalCost := .num 10 }

/-- A short public-key string for node 2 in the samples. -/
def samplePeer2 : SuperPeerInfo :=
  { NodeID := 2, Name := "Node_02", PubKey := "B", PSKey := "", AdditionalCost := .num (-1) }

/-- The registry after node 1 was admitted and then removed by `super_peerdel`. -/
def stateAfterDel : HttpObj sampleTypes :=
  (super_peerdel (super_peeradd sampleExt (initState sampleConfig) samplePeer1).1 1).1

/-- A Register event of node 1. -/
def sampleRegister1 : RegisterMsg :=
  { Node_id := 1
    Version := "v"
    JWTSecret := [1, 2, 3]
    HttpPostCount := 4
    NhStateHash := "nh"
    PeerStateHash := "pi"
    SuperParamStateHash := "sp" }

/-- The registry after nodes 1 and 2 were admitted (own keys set, so both devices
hold both peers). -/
def stateTwoPeers : HttpObj sampleTypes :=
  (super_peeradd sampleExt (super_peeradd sampleExt (initState sampleConfig) samplePeer1).1
    samplePeer2).1

/-- The record `super_peeradd` seeds for a peer in the sample state. -/
def samplePeerState : PeerState :=
  { NhTableState := ""
    PeerInfoState := ""
    SuperParamState := saltedHash sampleExt [0] [7]
    SuperParamStateClient := ""
    JETSecret := JWTSecret.zero
    httpPostCount := 0
    LastSeen := 0 }

/-- The registry after nodes 1 and 2 were admitted and node 1 was removed again. -/
def stateTwoPeersDel1 : HttpObj sampleTypes :=
  (super_peerdel stateTwoPeers 1).1

/-- A Pong event from node 1 about node 2. -/
def samplePong12 : PongMsg :=
  { RequestID := 9
    Src_nodeID := 1
    Dst_nodeID := 2
    Timediff := 5
    TimeToAlive := .num 3
    AdditionalCost := .num 4 }

/-- Whether a graph call is a call of `UpdateLatency`. -/
def GraphCall.isUpdateLatency : GraphCall → Bool
  | .UpdateLatency _ _ _ _ _ _ _ => true
  | _ => false

/-- The sample state with two admitted peers after node 1 completed a handshake
on the IPv4 device, so that its peer there has an endpoint. -/
def stateEndpoint : HttpObj sampleTypes :=
  { stateTwoPeers with http_device4 := [([66], 2, ""), ([65], 1, "192.0.2.1:3001")] }

/-- The state after node 1 registered at clock reading `1000000000000`. -/
def stateNode1Registered : HttpObj sampleTypes :=
  match Event_server_register sampleExt stateEndpoint 1000000000000 sampleRegister1 with
  | .ok out => out.state
  | .error _ => stateEndpoint

/-- The record of node 1 in `stateNode1Registered`. -/
def samplePeerStateRegistered : PeerState :=
  { NhTableState := "nh"
    PeerInfoState := "pi"
    SuperParamState := saltedHash sampleExt [0] [7]
    SuperParamStateClient := "sp"
    JETSecret := [1, 2, 3]
    httpPostCount := 4
    LastSeen := 1000000000000 }

/-- A call on the registry: `super_peeradd(peerconf)` or `super_peerdel(toDelete)`. -/
inductive RegistryOp where
  | add (peerconf : SuperPeerInfo) : RegistryOp
  | del (toDelete : Vertex) : RegistryOp
  deriving DecidableEq, Repr

/-- The state after one registry call. -/
def RegistryOp.apply {T : Types} (ext : Ext T) (st : HttpObj T) : RegistryOp → HttpObj T
  | .add peerconf => (super_peeradd ext st peerconf).1
  | .del toDelete => (super_peerdel st toDelete).1

/-- The state after a sequence of registry calls. -/
def runOps {T : Types} (ext : Ext T) (st : HttpObj T) (ops : List RegistryOp) : HttpObj T :=
  ops.foldl (RegistryOp.apply ext) st

/-- Two admissions under the same public key but different node ids. -/
def samplePeer2SameKey : SuperPeerInfo :=
  { NodeID := 2, Name := "Node_02", PubKey := "A", PSKey := "", AdditionalCost := .num 10 }

/-- The sample instance of what `Super` calls at startup. -/
def sampleSuperEnv : SuperEnv sampleTypes :=
  { RandomStr := [7]
    NewGraph := fun _ => []
    SetNHTable := fun g _ => g
    NewDevice := fun _ _ _ => []
    Str2PriKey := sampleStr2Key
    SetPrivateKey := fun dev _ _ => dev
    startUAPI := fun _ _ => none }

/-- The sample configuration with `PeerAliveTimeout: 0`. -/
def sampleConfigZeroTimeout : SuperConfig :=
  { sampleConfig with PeerAliveTimeout := .num 0 }

/-- A next-hop table for nodes 1 and 2 whose entry `[1][2]` is a nil pointer (in
YAML: `1: {2: null}`). -/
def nilNextHopTable : NextHopTable :=
  AList.insert 1 (AList.insert 2 none ∅) (AList.insert 2 (AList.insert 1 (some 1) ∅) ∅)

/-- The sample configuration in static mode with the table `nilNextHopTable`. -/
def sampleConfigStaticNil : SuperConfig :=
  { sampleConfig with StaticMode := true, NextHopTable := nilNextHopTable }

/-! ## Statements used by the theorems -/

/-- The sending rule of a push entry point whose `SendPacket` calls are `sent`:
the calls are exactly these: for a public key `pk` whose record is alive, with
`force` set or the record diverged, and for a family whose device
(`http_device4` for v4, `http_device6` for v6) has a peer for `pk` (with a
non-empty endpoint when `needEndpoint`), one call on that device, handing
`SendPacket` that very peer and the buffer made of the header `Src = Dst =
SuperNodeMessage`, `TTL = 0`, length `uint16(len(body))` and the payload
`body`. -/
def PushSpec {T : Types} (ext : Ext T) (st : HttpObj T) (now : Time) (force : Bool)
    (diverged : PeerState → Prop) (needEndpoint : Bool) (body : PeerState → Bytes)
    (sent : List (Sent T)) : Prop :=
  ∀ s : Sent T, s ∈ sent ↔
    ∃ (pk : String) (ps : PeerState) (peer : T.Peer),
      st.http_PeerState.lookup pk = some ps ∧
      ps.LastSeen + ext.S2TD st.http_sconfig.PeerAliveTimeout > now ∧
      (force = true ∨ diverged ps) ∧
      ((s.family = Family.v4 ∧ ext.LookupPeerByStr st.http_device4 pk = some peer) ∨
        (s.family = Family.v6 ∧ ext.LookupPeerByStr st.http_device6 pk = some peer)) ∧
      (needEndpoint = true → ext.GetEndpointDstStr peer ≠ "") ∧
      s.pkstr = pk ∧
      s.peer = some peer ∧
      s.packet.body = body ps ∧
      s.packet.header =
        { Src := ext.SuperNodeMessage
          Dst := ext.SuperNodeMessage
          TTL := 0
          PacketLength := (body ps).length % 65536 }

/-- The two indexes of the registry agree: every entry of `http_PeerID2Info`
names a public key that has a record in `http_PeerState`, and every record of
`http_PeerState` belongs to exactly one entry of `http_PeerID2Info`. -/
def RegistryConsistent {T : Types} (st : HttpObj T) : Prop :=
  (∀ id info, st.http_PeerID2Info.lookup id = some info →
    (st.http_PeerState.lookup info.PubKey).isSome = true) ∧
  (∀ pk, (st.http_PeerState.lookup pk).isSome = true →
    ∃! id, ∃ info, st.http_PeerID2Info.lookup id = some info ∧ info.PubKey = pk)

/-- The peer is new to the registry: neither its node id nor its public key is
in use. -/
def AddFresh {T : Types} (st : HttpObj T) (peerconf : SuperPeerInfo) : Prop :=
  st.http_PeerID2Info.lookup peerconf.NodeID = none ∧
    st.http_PeerState.lookup peerconf.PubKey = none

/-- Every `super_peeradd` of the sequence that returns nil admits a peer that is
new to the registry at that point. -/
def OpsFresh {T : Types} (ext : Ext T) : HttpObj T → List RegistryOp → Prop
  | _, [] => True
  | st, .add peerconf :: ops =>
    ((super_peeradd ext st peerconf).2 = none → AddFresh st peerconf) ∧
      OpsFresh ext (RegistryOp.apply ext st (.add peerconf)) ops
  | st, .del toDelete :: ops => OpsFresh ext (RegistryOp.apply ext st (.del toDelete)) ops


/-- One of the conditions lines 163-180 reject: the node name is longer than 32
bytes, `PeerAliveTimeout <= 0`, `HttpPostInterval < 0`, `HttpPostInterval >
PeerAliveTimeout`, `SendPingInterval <= 0` or `RePushConfigInterval <= 0`. -/
def Super.badOptions (sconfig : SuperConfig) : Prop :=
  sconfig.NodeName.utf8ByteSize > 32 ∨
  Float64.le sconfig.PeerAliveTimeout (.num 0) = true ∨
  Float64.lt sconfig.HttpPostInterval (.num 0) = true ∨
  Float64.lt sconfig.PeerAliveTimeout sconfig.HttpPostInterval = true ∨
  Float64.le sconfig.SendPingInterval (.num 0) = true ∨
  Float64.le sconfig.RePushConfigInterval (.num 0) = true

/-- Every option is in its range: the node name has at most 32 bytes,
`PeerAliveTimeout > 0`, `0 <= HttpPostInterval <= PeerAliveTimeout`,
`SendPingInterval > 0` and `RePushConfigInterval > 0`. -/
def Super.optionsInRange (sconfig : SuperConfig) : Prop :=
  sconfig.NodeName.utf8ByteSize ≤ 32 ∧
  Float64.lt (.num 0) sconfig.PeerAliveTimeout = true ∧
  Float64.le (.num 0) sconfig.HttpPostInterval = true ∧
  Float64.le sconfig.HttpPostInterval sconfig.PeerAliveTimeout = true ∧
  Float64.lt (.num 0) sconfig.SendPingInterval = true ∧
  Float64.lt (.num 0) sconfig.RePushConfigInterval = true


/-! ## Theorems -/

theorem checkNhTable.allpeer_foldl_lookup (peers : List SuperPeerInfo) (m : GoMap Vertex Bool)
    (v : Vertex) :
    ((peers.foldl (fun m peer1 => AList.insert peer1.NodeID true m) m).lookup v).isSome ↔
      (m.lookup v).isSome ∨ ∃ p ∈ peers, p.NodeID = v := by
  induction peers generalizing m with
  | nil => simp
  | cons p ps ih =>
    rw [List.foldl_cons, ih]
    by_cases h : v = p.NodeID
    · subst h
      simp [AList.lookup_insert]
    · have h2 : ∀ q : SuperPeerInfo, q = p → ¬ q.NodeID = v := by
        intro q hq heq; subst hq; exact h heq.symm
      simp [AList.lookup_insert_ne h]
      constructor
      · rintro (h1 | ⟨q, hq, hv⟩)
        · exact Or.inl h1
        · exact Or.inr (Or.inr ⟨q, hq, hv⟩)
      · rintro (h1 | h1 | ⟨q, hq, hv⟩)
        · exact Or.inl h1
        · exact absurd h1.symm h
        · exact Or.inr ⟨q, hq, hv⟩

theorem checkNhTable.allpeer_lookup (peers : List SuperPeerInfo) (v : Vertex) :
    ((checkNhTable.allpeer peers).lookup v).isSome ↔ ∃ p ∈ peers, p.NodeID = v := by
  unfold checkNhTable.allpeer
  rw [checkNhTable.allpeer_foldl_lookup]
  simp

theorem checkNhTable.inner_spec (NhTable : NextHopTable) (allpeer : GoMap Vertex Bool)
    (hnn : NhNonNull NhTable) (peer1 : SuperPeerInfo) (l : List SuperPeerInfo) :
    (checkNhTable.inner NhTable allpeer peer1 l = .ok none ↔
      ∀ p2 ∈ l, peer1.NodeID ≠ p2.NodeID →
        ∃ row nextv, NhTable.lookup peer1.NodeID = some row ∧
          row.lookup p2.NodeID = some (some nextv) ∧ (allpeer.lookup nextv).isSome) ∧
    (∃ r, checkNhTable.inner NhTable allpeer peer1 l = .ok r) := by
  induction l with
  | nil => simp [checkNhTable.inner]
  | cons peer2 rest ih =>
    obtain ⟨ih1, ih2⟩ := ih
    unfold checkNhTable.inner
    by_cases heq : peer1.NodeID = peer2.NodeID
    · rw [if_pos heq]
      refine ⟨?_, ih2⟩
      rw [ih1]
      constructor
      · intro h p2 hp2 hne
        rcases List.mem_cons.mp hp2 with rfl | hmem
        · exact absurd heq hne
        · exact h p2 hmem hne
      · intro h p2 hp2 hne
        exact h p2 (List.mem_cons_of_mem _ hp2) hne
    · rw [if_neg heq]
      dsimp only
      have hsplit : ∀ P : SuperPeerInfo → Prop,
          (∀ p2 ∈ peer2 :: rest, peer1.NodeID ≠ p2.NodeID → P p2) ↔
            (P peer2 ∧ ∀ p2 ∈ rest, peer1.NodeID ≠ p2.NodeID → P p2) := by
        intro P
        constructor
        · intro h
          exact ⟨h peer2 (List.mem_cons_self _ _) heq,
            fun p2 hp2 hne => h p2 (List.mem_cons_of_mem _ hp2) hne⟩
        · intro h p2 hp2 hne
          rcases List.mem_cons.mp hp2 with rfl | hmem
          · exact h.1
          · exact h.2 p2 hmem hne
      rw [hsplit]
      cases hrow : NhTable.lookup peer1.NodeID with
      | none => simp
      | some row =>
        cases hent : row.lookup peer2.NodeID with
        | none => simp [hent]
        | some next =>
          cases next with
          | none => exact absurd hent (hnn _ _ _ hrow)
          | some nextv =>
            cases hap : allpeer.lookup nextv with
            | none => simp [hent, hap]
            | some b =>
              simp only [hent, hap]
              refine ⟨?_, ih2⟩
              rw [ih1, hrow]
              constructor
              · intro h
                exact ⟨⟨row, nextv, rfl, hent, by simp [hap]⟩, h⟩
              · intro h
                exact h.2

theorem checkNhTable.outer_spec (NhTable : NextHopTable) (allpeer : GoMap Vertex Bool)
    (hnn : NhNonNull NhTable) (peers l : List SuperPeerInfo) :
    (checkNhTable.outer NhTable allpeer peers l = .ok none ↔
      ∀ p1 ∈ l, ∀ p2 ∈ peers, p1.NodeID ≠ p2.NodeID →
        ∃ row nextv, NhTable.lookup p1.NodeID = some row ∧
          row.lookup p2.NodeID = some (some nextv) ∧ (allpeer.lookup nextv).isSome) ∧
    (∃ r, checkNhTable.outer NhTable allpeer peers l = .ok r) := by
  induction l with
  | nil => simp [checkNhTable.outer]
  | cons peer1 rest ih =>
    obtain ⟨ih1, ih2⟩ := ih
    obtain ⟨in1, r, in2⟩ := checkNhTable.inner_spec NhTable allpeer hnn peer1 peers
    unfold checkNhTable.outer
    cases r with
    | some e =>
      have hne : ¬ (checkNhTable.inner NhTable allpeer peer1 peers = .ok none) := by
        rw [in2]; simp
      rw [in1] at hne
      simp only [in2, List.mem_cons, forall_eq_or_imp]
      constructor
      · constructor
        · intro h; cases h
        · intro h; exact absurd h.1 hne
      · exact ⟨_, rfl⟩
    | none =>
      rw [in1] at in2
      simp only [List.mem_cons, forall_eq_or_imp]
      have hin : checkNhTable.inner NhTable allpeer peer1 peers = .ok none := in1.mpr in2
      simp only [hin]
      refine ⟨?_, ih2⟩
      rw [ih1]
      constructor
      · intro h; exact ⟨in2, h⟩
      · intro h; exact h.2

/-- C1: for a next-hop table without nil entries, `checkNhTable` returns nil
exactly when every ordered pair of roster peers with different node ids has an
entry `NHT[s][d]` whose value is the node id of a roster peer; in every other
case it returns an error (and it never panics). -/
theorem checkNhTable_nil_iff_closed (NhTable : NextHopTable) (peers : List SuperPeerInfo)
    (hnn : NhNonNull NhTable) :
    (checkNhTable NhTable peers = .ok none ↔ NhClosed NhTable peers) ∧
    (¬ NhClosed NhTable peers → ∃ e, checkNhTable NhTable peers = .ok (some e)) := by
  obtain ⟨h1, r, h2⟩ :=
    checkNhTable.outer_spec NhTable (checkNhTable.allpeer peers) hnn peers peers
  have hiff : checkNhTable NhTable peers = .ok none ↔ NhClosed NhTable peers := by
    unfold checkNhTable NhClosed
    rw [h1]
    simp only [checkNhTable.allpeer_lookup]
  refine ⟨hiff, ?_⟩
  intro hnc
  cases r with
  | some e => exact ⟨e, h2⟩
  | none => exact absurd (hiff.mp h2) hnc

theorem NhNonNull_of_check (NhTable : NextHopTable) (h : nhNonNullCheck NhTable = true) :
    NhNonNull NhTable := by
  intro s row d hrow hent
  unfold nhNonNullCheck at h
  rw [List.all_eq_true] at h
  have h1 := h ⟨s, row⟩ (AList.mem_lookup_iff.mp hrow)
  rw [List.all_eq_true] at h1
  have h2 := h1 ⟨d, none⟩ (AList.mem_lookup_iff.mp hent)
  simp at h2

/-- Witness for C1: the next-hop table and the roster of the example
configuration. -/
theorem checkNhTable_nil_iff_closed_witness :
    NhNonNull exampleNextHopTable ∧
    ((checkNhTable exampleNextHopTable examplePeers = .ok none ↔
        NhClosed exampleNextHopTable examplePeers) ∧
      (¬ NhClosed exampleNextHopTable examplePeers →
        ∃ e, checkNhTable exampleNextHopTable examplePeers = .ok (some e))) :=
  ⟨NhNonNull_of_check _ (by decide),
    checkNhTable_nil_iff_closed exampleNextHopTable examplePeers
      (NhNonNull_of_check _ (by decide))⟩

/-! ### The Register handler -/

theorem lookupInfo_of_lookup_none (m : GoMap Vertex SuperPeerInfo) (k : Vertex)
    (h : m.lookup k = none) : lookupInfo m k = SuperPeerInfo.zero := by
  unfold lookupInfo; rw [h]

theorem lookupInfo_of_lookup_some (m : GoMap Vertex SuperPeerInfo) (k : Vertex)
    (info : SuperPeerInfo) (h : m.lookup k = some info) : lookupInfo m k = info := by
  unfold lookupInfo; rw [h]

/-- C2 (the code's behaviour): a Register event whose node id is below
`Special_NodeID` and has no entry in `http_PeerID2Info` is not dropped: the map
read yields the empty public key, `http_PeerState[""]` is nil, and the first store
through it panics. -/
theorem Event_server_register_unknown_panics {T : Types} (ext : Ext T) (st : HttpObj T)
    (now : Time) (reg_msg : RegisterMsg)
    (hlt : reg_msg.Node_id < ext.Special_NodeID)
    (hmiss : st.http_PeerID2Info.lookup reg_msg.Node_id = none)
    (hempty : st.http_PeerState.lookup "" = none) :
    Event_server_register ext st now reg_msg = .error Panic.nilDeref := by
  have hrec : Event_server_register.record ext st now reg_msg = .error Panic.nilDeref := by
    unfold Event_server_register.record
    dsimp only
    rw [if_pos hlt, lookupInfo_of_lookup_none _ _ hmiss]
    show (match AList.lookup "" st.http_PeerState with
      | none => Except.error Panic.nilDeref
      | some ps => _) = _
    rw [hempty]
  unfold Event_server_register
  rw [hrec]

/-- Witness for C2: node 1 is admitted, removed by `super_peerdel`, and then a
Register event of node 1 arrives: the handler panics. -/
theorem Event_server_register_unknown_panics_witness :
    Event_server_register sampleExt stateAfterDel 100 sampleRegister1 =
      .error Panic.nilDeref :=
  Event_server_register_unknown_panics sampleExt stateAfterDel 100 sampleRegister1
    (by decide) (by rfl) (by rfl)

/-! ### The push engine -/

theorem PushNhTable_sendOne_mem {T : Types} (ext : Ext T) (st : HttpObj T) (buf : Packet)
    (pk : String) (fam : Family) (s : Sent T) :
    s ∈ PushNhTable.sendOne ext st buf pk fam ↔
      ∃ peer, ext.LookupPeerByStr (st.device fam) pk = some peer ∧
        ext.GetEndpointDstStr peer ≠ "" ∧
        s = { family := fam, pkstr := pk, peer := some peer, packet := buf } := by
  unfold PushNhTable.sendOne
  cases h : ext.LookupPeerByStr (st.device fam) pk with
  | none => simp
  | some peer =>
    by_cases he : ext.GetEndpointDstStr peer = ""
    · simp [he]
    · simp [he]

theorem PushPeerinfo_sendOne_mem {T : Types} (ext : Ext T) (st : HttpObj T) (buf : Packet)
    (pk : String) (fam : Family) (s : Sent T) :
    s ∈ PushPeerinfo.sendOne ext st buf pk fam ↔
      ∃ peer, ext.LookupPeerByStr (st.device fam) pk = some peer ∧
        s = { family := fam, pkstr := pk, peer := some peer, packet := buf } := by
  unfold PushPeerinfo.sendOne
  cases h : ext.LookupPeerByStr (st.device fam) pk with
  | none => simp
  | some peer => simp

theorem PushNhTable_loop_mem {T : Types} (ext : Ext T) (st : HttpObj T) (now : Time)
    (force : Bool) (buf : Packet) (l : List (Sigma fun _ : String => PeerState)) (s : Sent T) :
    s ∈ PushNhTable.loop ext st now force buf l ↔
      ∃ e ∈ l, isAlive ext st now e.2 = true ∧
        (force = true ∨ e.2.NhTableState ≠ st.http_NhTable_Hash) ∧
        (s ∈ PushNhTable.sendOne ext st buf e.1 Family.v4 ∨
          s ∈ PushNhTable.sendOne ext st buf e.1 Family.v6) := by
  induction l with
  | nil => simp [PushNhTable.loop]
  | cons e rest ih =>
    obtain ⟨pkstr, peerstate⟩ := e
    rw [PushNhTable.loop]
    by_cases ha : isAlive ext st now peerstate = true
    · by_cases hd : force = true ∨ peerstate.NhTableState ≠ st.http_NhTable_Hash
      · rw [if_neg (by simp [ha]), if_pos hd, List.mem_append, List.mem_append, ih]
        constructor
        · rintro (h | h | ⟨e, he, h⟩)
          · exact ⟨_, List.mem_cons_self _ _, ha, hd, Or.inl h⟩
          · exact ⟨_, List.mem_cons_self _ _, ha, hd, Or.inr h⟩
          · exact ⟨e, List.mem_cons_of_mem _ he, h⟩
        · rintro ⟨e, he, h1, h2, h3⟩
          rcases List.mem_cons.mp he with rfl | hmem
          · rcases h3 with h3 | h3
            · exact Or.inl h3
            · exact Or.inr (Or.inl h3)
          · exact Or.inr (Or.inr ⟨e, hmem, h1, h2, h3⟩)
      · rw [if_neg (by simp [ha]), if_neg hd, ih]
        constructor
        · rintro ⟨e, he, h⟩
          exact ⟨e, List.mem_cons_of_mem _ he, h⟩
        · rintro ⟨e, he, h1, h2, h3⟩
          rcases List.mem_cons.mp he with rfl | hmem
          · exact absurd h2 hd
          · exact ⟨e, hmem, h1, h2, h3⟩
    · rw [if_pos (by simp [ha]), ih]
      constructor
      · rintro ⟨e, he, h⟩
        exact ⟨e, List.mem_cons_of_mem _ he, h⟩
      · rintro ⟨e, he, h1, h2, h3⟩
        rcases List.mem_cons.mp he with rfl | hmem
        · exact absurd h1 ha
        · exact ⟨e, hmem, h1, h2, h3⟩

theorem PushPeerinfo_loop_mem {T : Types} (ext : Ext T) (st : HttpObj T) (now : Time)
    (force : Bool) (buf : Packet) (l : List (Sigma fun _ : String => PeerState)) (s : Sent T) :
    s ∈ PushPeerinfo.loop ext st now force buf l ↔
      ∃ e ∈ l, isAlive ext st now e.2 = true ∧
        (force = true ∨ e.2.PeerInfoState ≠ st.http_PeerInfo_hash) ∧
        (s ∈ PushPeerinfo.sendOne ext st buf e.1 Family.v4 ∨
          s ∈ PushPeerinfo.sendOne ext st buf e.1 Family.v6) := by
  induction l with
  | nil => simp [PushPeerinfo.loop]
  | cons e rest ih =>
    obtain ⟨pkstr, peerstate⟩ := e
    rw [PushPeerinfo.loop]
    by_cases ha : isAlive ext st now peerstate = true
    · by_cases hd : force = true ∨ peerstate.PeerInfoState ≠ st.http_PeerInfo_hash
      · rw [if_neg (by simp [ha]), if_pos hd, List.mem_append, List.mem_append, ih]
        constructor
        · rintro (h | h | ⟨e, he, h⟩)
          · exact ⟨_, List.mem_cons_self _ _, ha, hd, Or.inl h⟩
          · exact ⟨_, List.mem_cons_self _ _, ha, hd, Or.inr h⟩
          · exact ⟨e, List.mem_cons_of_mem _ he, h⟩
        · rintro ⟨e, he, h1, h2, h3⟩
          rcases List.mem_cons.mp he with rfl | hmem
          · rcases h3 with h3 | h3
            · exact Or.inl h3
            · exact Or.inr (Or.inl h3)
          · exact Or.inr (Or.inr ⟨e, hmem, h1, h2, h3⟩)
      · rw [if_neg (by simp [ha]), if_neg hd, ih]
        constructor
        · rintro ⟨e, he, h⟩
          exact ⟨e, List.mem_cons_of_mem _ he, h⟩
        · rintro ⟨e, he, h1, h2, h3⟩
          rcases List.mem_cons.mp he with rfl | hmem
          · exact absurd h2 hd
          · exact ⟨e, hmem, h1, h2, h3⟩
    · rw [if_pos (by simp [ha]), ih]
      constructor
      · rintro ⟨e, he, h⟩
        exact ⟨e, List.mem_cons_of_mem _ he, h⟩
      · rintro ⟨e, he, h1, h2, h3⟩
        rcases List.mem_cons.mp he with rfl | hmem
        · exact absurd h1 ha
        · exact ⟨e, hmem, h1, h2, h3⟩

theorem PushServerParams_loop_mem {T : Types} (ext : Ext T) (st : HttpObj T) (now : Time)
    (force : Bool) (hGet : ∀ m, (ext.GetByte m).2 = none)
    (l : List (Sigma fun _ : String => PeerState)) (s : Sent T) :
    s ∈ PushServerParams.loop ext st now force l ↔
      ∃ e ∈ l, isAlive ext st now e.2 = true ∧
        (force = true ∨ e.2.SuperParamState ≠ e.2.SuperParamStateClient) ∧
        ∃ fam peer, ext.LookupPeerByStr (st.device fam) e.1 = some peer ∧
          s = { family := fam, pkstr := e.1, peer := some peer,
                packet :=
                  { header := pushHeader ext (ext.GetByte
                      { Node_id := ext.SuperNodeMessage, Action := Action.UpdateSuperParams,
                        Code := 0, Params := e.2.SuperParamState }).1
                    body := (ext.GetByte
                      { Node_id := ext.SuperNodeMessage, Action := Action.UpdateSuperParams,
                        Code := 0, Params := e.2.SuperParamState }).1 } } := by
  induction l with
  | nil => simp [PushServerParams.loop]
  | cons e rest ih =>
    obtain ⟨pkstr, peerstate⟩ := e
    rw [PushServerParams.loop]
    by_cases ha : isAlive ext st now peerstate = true
    · by_cases hd : force = true ∨ peerstate.SuperParamState ≠ peerstate.SuperParamStateClient
      · rw [if_neg (by simp [ha]), if_pos hd]
        generalize hm : ext.GetByte
          { Node_id := ext.SuperNodeMessage, Action := Action.UpdateSuperParams, Code := 0,
            Params := peerstate.SuperParamState } = r
        have hr : r.2 = none := by rw [← hm]; exact hGet _
        obtain ⟨body, err⟩ := r
        simp only at hr
        subst hr
        simp only
        rw [List.mem_append, List.mem_append, ih, PushPeerinfo_sendOne_mem,
          PushPeerinfo_sendOne_mem]
        constructor
        · rintro (⟨peer, hp, rfl⟩ | ⟨peer, hp, rfl⟩ | ⟨e, he, h⟩)
          · exact ⟨_, List.mem_cons_self _ _, ha, hd, Family.v4, peer, hp, by simp only [hm]⟩
          · exact ⟨_, List.mem_cons_self _ _, ha, hd, Family.v6, peer, hp, by simp only [hm]⟩
          · exact ⟨e, List.mem_cons_of_mem _ he, h⟩
        · rintro ⟨e, he, h1, h2, fam, peer, hp, hs⟩
          rcases List.mem_cons.mp he with rfl | hmem
          · simp only [hm] at hs
            cases fam with
            | v4 => exact Or.inl ⟨peer, hp, hs⟩
            | v6 => exact Or.inr (Or.inl ⟨peer, hp, hs⟩)
          · exact Or.inr (Or.inr ⟨e, hmem, h1, h2, fam, peer, hp, hs⟩)
      · rw [if_neg (by simp [ha]), if_neg hd, ih]
        constructor
        · rintro ⟨e, he, h⟩
          exact ⟨e, List.mem_cons_of_mem _ he, h⟩
        · rintro ⟨e, he, h1, h2, h3⟩
          rcases List.mem_cons.mp he with rfl | hmem
          · exact absurd h2 hd
          · exact ⟨e, hmem, h1, h2, h3⟩
    · rw [if_pos (by simp [ha]), ih]
      constructor
      · rintro ⟨e, he, h⟩
        exact ⟨e, List.mem_cons_of_mem _ he, h⟩
      · rintro ⟨e, he, h1, h2, h3⟩
        rcases List.mem_cons.mp he with rfl | hmem
        · exact absurd h1 ha
        · exact ⟨e, hmem, h1, h2, h3⟩

theorem isAlive_iff {T : Types} (ext : Ext T) (st : HttpObj T) (now : Time) (ps : PeerState) :
    isAlive ext st now ps = true ↔
      ps.LastSeen + ext.S2TD st.http_sconfig.PeerAliveTimeout > now := by
  unfold isAlive
  exact decide_eq_true_iff

theorem entries_mem_iff_lookup {V : Type} (m : GoMap String V) (pk : String) (v : V) :
    (⟨pk, v⟩ : Sigma fun _ : String => V) ∈ m.entries ↔ m.lookup pk = some v :=
  AList.mem_lookup_iff.symm

theorem Sent.eq_of_fields {T : Types} (s : Sent T) (fam : Family) (pk : String)
    (peer : T.Peer) (hdr : EgHeader) (body : Bytes)
    (h1 : s.family = fam) (h2 : s.pkstr = pk) (h3 : s.peer = some peer)
    (h4 : s.packet.body = body) (h5 : s.packet.header = hdr) :
    s = { family := fam, pkstr := pk, peer := some peer,
          packet := { header := hdr, body := body } } := by
  obtain ⟨f, k, p, ⟨h, b⟩⟩ := s
  simp only at h1 h2 h3 h4 h5
  subst h1; subst h2; subst h3; subst h4; subst h5
  rfl

theorem PushNhTable_spec {T : Types} (ext : Ext T) (st : HttpObj T) (now : Time) (force : Bool)
    (hGet : ∀ m, (ext.GetByte m).2 = none) :
    PushSpec ext st now force (fun ps => ps.NhTableState ≠ st.http_NhTable_Hash) true
      (fun _ => (ext.GetByte
        { Node_id := ext.SuperNodeMessage, Action := Action.UpdateNhTable, Code := 0,
          Params := st.http_NhTable_Hash }).1)
      (PushNhTable ext st now force) := by
  intro s
  unfold PushNhTable
  generalize hm : ext.GetByte
    { Node_id := ext.SuperNodeMessage, Action := Action.UpdateNhTable, Code := 0,
      Params := st.http_NhTable_Hash } = r
  have hr : r.2 = none := by rw [← hm]; exact hGet _
  obtain ⟨body, err⟩ := r
  simp only at hr
  subst hr
  simp only
  rw [PushNhTable_loop_mem]
  constructor
  · rintro ⟨⟨k, ps⟩, he, h1, h2, h3⟩
    rw [PushNhTable_sendOne_mem, PushNhTable_sendOne_mem] at h3
    rcases h3 with ⟨peer, hp, hep, rfl⟩ | ⟨peer, hp, hep, rfl⟩
    · exact ⟨k, ps, peer, (entries_mem_iff_lookup _ _ _).mp he, (isAlive_iff _ _ _ _).mp h1, h2,
        Or.inl ⟨rfl, hp⟩, fun _ => hep, rfl, rfl, rfl, rfl⟩
    · exact ⟨k, ps, peer, (entries_mem_iff_lookup _ _ _).mp he, (isAlive_iff _ _ _ _).mp h1, h2,
        Or.inr ⟨rfl, hp⟩, fun _ => hep, rfl, rfl, rfl, rfl⟩
  · rintro ⟨pk, ps, peer, hl, h1, h2, hdev, hep, hk, hpe, hb, hh⟩
    refine ⟨⟨pk, ps⟩, (entries_mem_iff_lookup _ _ _).mpr hl, (isAlive_iff _ _ _ _).mpr h1, h2, ?_⟩
    rw [PushNhTable_sendOne_mem, PushNhTable_sendOne_mem]
    rcases hdev with ⟨hf, hp⟩ | ⟨hf, hp⟩
    · exact Or.inl ⟨peer, hp, hep trivial, Sent.eq_of_fields s _ _ _ _ _ hf hk hpe hb hh⟩
    · exact Or.inr ⟨peer, hp, hep trivial, Sent.eq_of_fields s _ _ _ _ _ hf hk hpe hb hh⟩

theorem PushPeerinfo_spec {T : Types} (ext : Ext T) (st : HttpObj T) (now : Time) (force : Bool)
    (hGet : ∀ m, (ext.GetByte m).2 = none) :
    PushSpec ext st now force (fun ps => ps.PeerInfoState ≠ st.http_PeerInfo_hash) false
      (fun _ => (ext.GetByte
        { Node_id := ext.SuperNodeMessage, Action := Action.UpdatePeer, Code := 0,
          Params := st.http_PeerInfo_hash }).1)
      (PushPeerinfo ext st now force) := by
  intro s
  unfold PushPeerinfo
  generalize hm : ext.GetByte
    { Node_id := ext.SuperNodeMessage, Action := Action.UpdatePeer, Code := 0,
      Params := st.http_PeerInfo_hash } = r
  have hr : r.2 = none := by rw [← hm]; exact hGet _
  obtain ⟨body, err⟩ := r
  simp only at hr
  subst hr
  simp only
  rw [PushPeerinfo_loop_mem]
  constructor
  · rintro ⟨⟨k, ps⟩, he, h1, h2, h3⟩
    rw [PushPeerinfo_sendOne_mem, PushPeerinfo_sendOne_mem] at h3
    rcases h3 with ⟨peer, hp, rfl⟩ | ⟨peer, hp, rfl⟩
    · exact ⟨k, ps, peer, (entries_mem_iff_lookup _ _ _).mp he, (isAlive_iff _ _ _ _).mp h1, h2,
        Or.inl ⟨rfl, hp⟩, fun h => absurd h (by decide), rfl, rfl, rfl, rfl⟩
    · exact ⟨k, ps, peer, (entries_mem_iff_lookup _ _ _).mp he, (isAlive_iff _ _ _ _).mp h1, h2,
        Or.inr ⟨rfl, hp⟩, fun h => absurd h (by decide), rfl, rfl, rfl, rfl⟩
  · rintro ⟨pk, ps, peer, hl, h1, h2, hdev, _, hk, hpe, hb, hh⟩
    refine ⟨⟨pk, ps⟩, (entries_mem_iff_lookup _ _ _).mpr hl, (isAlive_iff _ _ _ _).mpr h1, h2, ?_⟩
    rw [PushPeerinfo_sendOne_mem, PushPeerinfo_sendOne_mem]
    rcases hdev with ⟨hf, hp⟩ | ⟨hf, hp⟩
    · exact Or.inl ⟨peer, hp, Sent.eq_of_fields s _ _ _ _ _ hf hk hpe hb hh⟩
    · exact Or.inr ⟨peer, hp, Sent.eq_of_fields s _ _ _ _ _ hf hk hpe hb hh⟩

theorem PushServerParams_spec {T : Types} (ext : Ext T) (st : HttpObj T) (now : Time)
    (force : Bool) (hGet : ∀ m, (ext.GetByte m).2 = none) :
    PushSpec ext st now force (fun ps => ps.SuperParamState ≠ ps.SuperParamStateClient) false
      (fun ps => (ext.GetByte
        { Node_id := ext.SuperNodeMessage, Action := Action.UpdateSuperParams, Code := 0,
          Params := ps.SuperParamState }).1)
      (PushServerParams ext st now force) := by
  intro s
  unfold PushServerParams
  rw [PushServerParams_loop_mem ext st now force hGet]
  constructor
  · rintro ⟨⟨k, ps⟩, he, h1, h2, fam, peer, hp, rfl⟩
    refine ⟨k, ps, peer, (entries_mem_iff_lookup _ _ _).mp he, (isAlive_iff _ _ _ _).mp h1, h2,
      ?_, fun h => absurd h (by decide), rfl, rfl, rfl, rfl⟩
    cases fam with
    | v4 => exact Or.inl ⟨rfl, hp⟩
    | v6 => exact Or.inr ⟨rfl, hp⟩
  · rintro ⟨pk, ps, peer, hl, h1, h2, hdev, _, hk, hpe, hb, hh⟩
    refine ⟨⟨pk, ps⟩, (entries_mem_iff_lookup _ _ _).mpr hl, (isAlive_iff _ _ _ _).mpr h1, h2, ?_⟩
    rcases hdev with ⟨hf, hp⟩ | ⟨hf, hp⟩
    · exact ⟨Family.v4, peer, hp, Sent.eq_of_fields s _ _ _ _ _ hf hk hpe hb hh⟩
    · exact ⟨Family.v6, peer, hp, Sent.eq_of_fields s _ _ _ _ _ hf hk hpe hb hh⟩

theorem fst_mem_keys_of_mem {V : Type} (e : Sigma fun _ : String => V)
    (l : List (Sigma fun _ : String => V)) (h : e ∈ l) : e.1 ∈ l.keys := by
  obtain ⟨k, v⟩ := e
  exact List.mem_keys_of_mem h

theorem sent_nodup_step {T : Types} (A B L : List (Sent T)) (pk : String)
    (hA : A.Nodup) (hB : B.Nodup) (hL : L.Nodup)
    (hAf : ∀ s ∈ A, s.family = Family.v4 ∧ s.pkstr = pk)
    (hBf : ∀ s ∈ B, s.family = Family.v6 ∧ s.pkstr = pk)
    (hLk : ∀ s ∈ L, s.pkstr ≠ pk) : (A ++ (B ++ L)).Nodup := by
  refine List.Nodup.append hA (List.Nodup.append hB hL ?_) ?_
  · intro x hxB hxL
    exact hLk x hxL (hBf x hxB).2
  · intro x hxA hxBL
    rcases List.mem_append.mp hxBL with h | h
    · have h4 := (hAf x hxA).1
      have h6 := (hBf x h).1
      rw [h4] at h6
      cases h6
    · exact hLk x h (hAf x hxA).2

theorem PushNhTable_sendOne_nodup {T : Types} (ext : Ext T) (st : HttpObj T) (buf : Packet)
    (pk : String) (fam : Family) : (PushNhTable.sendOne ext st buf pk fam).Nodup := by
  unfold PushNhTable.sendOne
  split
  · split
    · exact List.nodup_singleton _
    · exact List.nodup_nil
  · exact List.nodup_nil

theorem PushPeerinfo_sendOne_nodup {T : Types} (ext : Ext T) (st : HttpObj T) (buf : Packet)
    (pk : String) (fam : Family) : (PushPeerinfo.sendOne ext st buf pk fam).Nodup := by
  unfold PushPeerinfo.sendOne
  split
  · exact List.nodup_singleton _
  · exact List.nodup_nil

theorem PushNhTable_loop_nodup {T : Types} (ext : Ext T) (st : HttpObj T) (now : Time)
    (force : Bool) (buf : Packet) (l : List (Sigma fun _ : String => PeerState))
    (hnd : l.NodupKeys) : (PushNhTable.loop ext st now force buf l).Nodup := by
  induction l with
  | nil => simp [PushNhTable.loop]
  | cons e rest ih =>
    obtain ⟨pkstr, peerstate⟩ := e
    obtain ⟨hnk, hrest⟩ := List.nodupKeys_cons.mp hnd
    rw [PushNhTable.loop]
    split
    · exact ih hrest
    · split
      · refine sent_nodup_step _ _ _ pkstr (PushNhTable_sendOne_nodup _ _ _ _ _)
          (PushNhTable_sendOne_nodup _ _ _ _ _) (ih hrest) ?_ ?_ ?_
        · intro s hs
          obtain ⟨peer, _, _, rfl⟩ := (PushNhTable_sendOne_mem _ _ _ _ _ _).mp hs
          exact ⟨rfl, rfl⟩
        · intro s hs
          obtain ⟨peer, _, _, rfl⟩ := (PushNhTable_sendOne_mem _ _ _ _ _ _).mp hs
          exact ⟨rfl, rfl⟩
        · intro s hs hk
          obtain ⟨e, he, _, _, h3⟩ := (PushNhTable_loop_mem _ _ _ _ _ _ _).mp hs
          have hek : s.pkstr = e.1 := by
            rcases h3 with h3 | h3
            · obtain ⟨peer, _, _, rfl⟩ := (PushNhTable_sendOne_mem _ _ _ _ _ _).mp h3
              rfl
            · obtain ⟨peer, _, _, rfl⟩ := (PushNhTable_sendOne_mem _ _ _ _ _ _).mp h3
              rfl
          apply hnk
          rw [← hk, hek]
          exact fst_mem_keys_of_mem e _ he
      · exact ih hrest

theorem PushPeerinfo_loop_nodup {T : Types} (ext : Ext T) (st : HttpObj T) (now : Time)
    (force : Bool) (buf : Packet) (l : List (Sigma fun _ : String => PeerState))
    (hnd : l.NodupKeys) : (PushPeerinfo.loop ext st now force buf l).Nodup := by
  induction l with
  | nil => simp [PushPeerinfo.loop]
  | cons e rest ih =>
    obtain ⟨pkstr, peerstate⟩ := e
    obtain ⟨hnk, hrest⟩ := List.nodupKeys_cons.mp hnd
    rw [PushPeerinfo.loop]
    split
    · exact ih hrest
    · split
      · refine sent_nodup_step _ _ _ pkstr (PushPeerinfo_sendOne_nodup _ _ _ _ _)
          (PushPeerinfo_sendOne_nodup _ _ _ _ _) (ih hrest) ?_ ?_ ?_
        · intro s hs
          obtain ⟨peer, _, rfl⟩ := (PushPeerinfo_sendOne_mem _ _ _ _ _ _).mp hs
          exact ⟨rfl, rfl⟩
        · intro s hs
          obtain ⟨peer, _, rfl⟩ := (PushPeerinfo_sendOne_mem _ _ _ _ _ _).mp hs
          exact ⟨rfl, rfl⟩
        · intro s hs hk
          obtain ⟨e, he, _, _, h3⟩ := (PushPeerinfo_loop_mem _ _ _ _ _ _ _).mp hs
          have hek : s.pkstr = e.1 := by
            rcases h3 with h3 | h3
            · obtain ⟨peer, _, rfl⟩ := (PushPeerinfo_sendOne_mem _ _ _ _ _ _).mp h3
              rfl
            · obtain ⟨peer, _, rfl⟩ := (PushPeerinfo_sendOne_mem _ _ _ _ _ _).mp h3
              rfl
          apply hnk
          rw [← hk, hek]
          exact fst_mem_keys_of_mem e _ he
      · exact ih hrest

theorem PushServerParams_loop_nodup {T : Types} (ext : Ext T) (st : HttpObj T) (now : Time)
    (force : Bool) (hGet : ∀ m, (ext.GetByte m).2 = none)
    (l : List (Sigma fun _ : String => PeerState))
    (hnd : l.NodupKeys) : (PushServerParams.loop ext st now force l).Nodup := by
  induction l with
  | nil => simp [PushServerParams.loop]
  | cons e rest ih =>
    obtain ⟨pkstr, peerstate⟩ := e
    obtain ⟨hnk, hrest⟩ := List.nodupKeys_cons.mp hnd
    rw [PushServerParams.loop]
    split
    · exact ih hrest
    · split
      · generalize ext.GetByte
          { Node_id := ext.SuperNodeMessage, Action := Action.UpdateSuperParams, Code := 0,
            Params := peerstate.SuperParamState } = r
        obtain ⟨body, err⟩ := r
        cases err with
        | some e => exact List.nodup_nil
        | none =>
          refine sent_nodup_step _ _ _ pkstr (PushPeerinfo_sendOne_nodup _ _ _ _ _)
            (PushPeerinfo_sendOne_nodup _ _ _ _ _) (ih hrest) ?_ ?_ ?_
          · intro s hs
            obtain ⟨peer, _, rfl⟩ := (PushPeerinfo_sendOne_mem _ _ _ _ _ _).mp hs
            exact ⟨rfl, rfl⟩
          · intro s hs
            obtain ⟨peer, _, rfl⟩ := (PushPeerinfo_sendOne_mem _ _ _ _ _ _).mp hs
            exact ⟨rfl, rfl⟩
          · intro s hs hk
            obtain ⟨e, he, _, _, fam, peer, _, rfl⟩ :=
              (PushServerParams_loop_mem ext st now force hGet _ _).mp hs
            apply hnk
            rw [← hk]
            exact fst_mem_keys_of_mem e _ he
      · exact ih hrest

/-- C3: provided the serialiser `GetByte` returns no error, the `SendPacket` calls
of each of `PushNhTable`, `PushPeerinfo` and `PushServerParams` are exactly
these: for every public key whose record has `LastSeen + PeerAliveTimeout > now`
and for which `force` is set or the record has diverged (nh: `NhTableState ≠
http_NhTable_Hash`; peer info: `PeerInfoState ≠ http_PeerInfo_hash`; super params:
`SuperParamState ≠ SuperParamStateClient`), and for every family whose device
(`http_device4`, `http_device6`) has a peer for the key (for nh, one with a
non-empty endpoint), one call on that device that hands `SendPacket` that peer
and the category's packet.  In particular a record that is not alive gets no
packet from any of the three, whatever `force` is; and no call is made twice. -/
theorem push_sends_iff {T : Types} (ext : Ext T) (st : HttpObj T) (now : Time) (force : Bool)
    (hGet : ∀ m, (ext.GetByte m).2 = none) :
    PushSpec ext st now force (fun ps => ps.NhTableState ≠ st.http_NhTable_Hash) true
      (fun _ => (ext.GetByte
        { Node_id := ext.SuperNodeMessage, Action := Action.UpdateNhTable, Code := 0,
          Params := st.http_NhTable_Hash }).1)
      (PushNhTable ext st now force) ∧
    PushSpec ext st now force (fun ps => ps.PeerInfoState ≠ st.http_PeerInfo_hash) false
      (fun _ => (ext.GetByte
        { Node_id := ext.SuperNodeMessage, Action := Action.UpdatePeer, Code := 0,
          Params := st.http_PeerInfo_hash }).1)
      (PushPeerinfo ext st now force) ∧
    PushSpec ext st now force (fun ps => ps.SuperParamState ≠ ps.SuperParamStateClient) false
      (fun ps => (ext.GetByte
        { Node_id := ext.SuperNodeMessage, Action := Action.UpdateSuperParams, Code := 0,
          Params := ps.SuperParamState }).1)
      (PushServerParams ext st now force) ∧
    (∀ pk ps, st.http_PeerState.lookup pk = some ps →
      ¬ (ps.LastSeen + ext.S2TD st.http_sconfig.PeerAliveTimeout > now) →
      ∀ s ∈ PushNhTable ext st now force ++
          (PushPeerinfo ext st now force ++ PushServerParams ext st now force),
        s.pkstr ≠ pk) ∧
    ((PushNhTable ext st now force).Nodup ∧ (PushPeerinfo ext st now force).Nodup ∧
      (PushServerParams ext st now force).Nodup) := by
  have h1 := PushNhTable_spec ext st now force hGet
  have h2 := PushPeerinfo_spec ext st now force hGet
  have h3 := PushServerParams_spec ext st now force hGet
  have hnd : (PushNhTable ext st now force).Nodup ∧ (PushPeerinfo ext st now force).Nodup ∧
      (PushServerParams ext st now force).Nodup := by
    refine ⟨?_, ?_, ?_⟩
    · unfold PushNhTable
      split
      · exact List.nodup_nil
      · exact PushNhTable_loop_nodup _ _ _ _ _ _ st.http_PeerState.nodupKeys
    · unfold PushPeerinfo
      split
      · exact List.nodup_nil
      · exact PushPeerinfo_loop_nodup _ _ _ _ _ _ st.http_PeerState.nodupKeys
    · exact PushServerParams_loop_nodup ext st now force hGet _ st.http_PeerState.nodupKeys
  refine ⟨h1, h2, h3, ?_, hnd⟩
  intro pk ps hl hna s hs hk
  have key : ∀ (sent : List (Sent T)) (dv : PeerState → Prop) (ne : Bool)
      (bd : PeerState → Bytes),
      PushSpec ext st now force dv ne bd sent → s ∈ sent → False := by
    intro sent dv ne bd hspec hmem
    obtain ⟨pk2, ps2, _, hl2, halive, _, _, _, hk2, _⟩ := (hspec s).mp hmem
    rw [← hk2, hk, hl] at hl2
    cases hl2
    exact hna halive
  rcases List.mem_append.mp hs with h | h
  · exact key _ _ _ _ h1 h
  · rcases List.mem_append.mp h with h | h
    · exact key _ _ _ _ h2 h
    · exact key _ _ _ _ h3 h

/-- Witness for C3: one second after node 1 registered, a forced `PushNhTable`
hands the IPv4 device the peer of node 1 and the next-hop packet, and node 2,
which never registered and is not alive, gets nothing from any of the three. -/
theorem push_sends_iff_witness :
    (∀ m, (sampleExt.GetByte m).2 = none) ∧
    ({ family := Family.v4
       pkstr := "A"
       peer := some ([65], 1, "192.0.2.1:3001")
       packet :=
         { header := { Src := 65533, Dst := 65533, TTL := 0, PacketLength := 2 }
           body := [65533, 0] } } ∈
      PushNhTable sampleExt stateNode1Registered 1001000000000 true) ∧
    (∀ s ∈ PushNhTable sampleExt stateNode1Registered 1001000000000 true ++
        (PushPeerinfo sampleExt stateNode1Registered 1001000000000 true ++
          PushServerParams sampleExt stateNode1Registered 1001000000000 true),
      s.pkstr ≠ "B") :=
  ⟨fun _ => rfl,
    ((push_sends_iff sampleExt stateNode1Registered 1001000000000 true (fun _ => rfl)).1 _).mpr
      ⟨"A", samplePeerStateRegistered, ([65], 1, "192.0.2.1:3001"), by rfl, by decide,
        Or.inl rfl, Or.inl ⟨rfl, by rfl⟩, fun _ => by decide, rfl, rfl, by rfl, by rfl⟩,
    (push_sends_iff sampleExt stateNode1Registered 1001000000000 true (fun _ => rfl)).2.2.2.1
      "B" samplePeerState (by rfl) (by decide)⟩

/-! ### The Register handler on an admitted peer -/

theorem Event_server_register.update_fields (now : Time) (reg_msg : RegisterMsg)
    (ps : PeerState) :
    (Event_server_register.update now reg_msg ps).1 =
      { NhTableState := reg_msg.NhStateHash
        PeerInfoState := reg_msg.PeerStateHash
        SuperParamState := ps.SuperParamState
        SuperParamStateClient := reg_msg.SuperParamStateHash
        JETSecret := reg_msg.JWTSecret
        httpPostCount := reg_msg.HttpPostCount
        LastSeen := now } := by
  unfold Event_server_register.update
  by_cases h1 : ps.NhTableState = reg_msg.NhStateHash <;>
  by_cases h2 : ps.PeerInfoState = reg_msg.PeerStateHash <;>
  by_cases h3 : ps.SuperParamStateClient = reg_msg.SuperParamStateHash <;>
  simp [h1, h2, h3]

theorem Event_server_register.update_flags (now : Time) (reg_msg : RegisterMsg)
    (ps : PeerState) :
    ((Event_server_register.update now reg_msg ps).2.1 = true ↔
        reg_msg.NhStateHash ≠ ps.NhTableState) ∧
    ((Event_server_register.update now reg_msg ps).2.2.1 = true ↔
        reg_msg.PeerStateHash ≠ ps.PeerInfoState) ∧
    ((Event_server_register.update now reg_msg ps).2.2.2 = true ↔
        reg_msg.SuperParamStateHash ≠ ps.SuperParamStateClient) := by
  unfold Event_server_register.update
  by_cases h1 : ps.NhTableState = reg_msg.NhStateHash <;>
  by_cases h2 : ps.PeerInfoState = reg_msg.PeerStateHash <;>
  by_cases h3 : ps.SuperParamStateClient = reg_msg.SuperParamStateHash <;>
  simp [h1, h2, h3, eq_comm]

theorem Event_server_register.record_admitted {T : Types} (ext : Ext T) (st : HttpObj T)
    (now : Time) (reg_msg : RegisterMsg) (info : SuperPeerInfo) (ps : PeerState)
    (hlt : reg_msg.Node_id < ext.Special_NodeID)
    (hinfo : st.http_PeerID2Info.lookup reg_msg.Node_id = some info)
    (hps : st.http_PeerState.lookup info.PubKey = some ps) :
    Event_server_register.record ext st now reg_msg =
      .ok ({ st with http_PeerState :=
              (AList.insert info.PubKey (Event_server_register.update now reg_msg ps).1
                st.http_PeerState) },
        (Event_server_register.update now reg_msg ps).2.1,
        (Event_server_register.update now reg_msg ps).2.2.1,
        (Event_server_register.update now reg_msg ps).2.2.2) := by
  unfold Event_server_register.record
  dsimp only
  rw [if_pos hlt, lookupInfo_of_lookup_some _ _ _ hinfo]
  show (match AList.lookup info.PubKey st.http_PeerState with
    | none => Except.error Panic.nilDeref
    | some ps => _) = _
  rw [hps]

theorem Event_server_register.record_sentinel {T : Types} (ext : Ext T) (st : HttpObj T)
    (now : Time) (reg_msg : RegisterMsg) (hge : ext.Special_NodeID ≤ reg_msg.Node_id) :
    Event_server_register.record ext st now reg_msg = .ok (st, false, false, false) := by
  unfold Event_server_register.record
  dsimp only
  rw [if_neg (Nat.not_lt.mpr hge)]

/-- What handling a Register event of an admitted peer leaves behind. -/
theorem Event_server_register.admitted_core {T : Types} (ext : Ext T) (st : HttpObj T)
    (now : Time) (reg_msg : RegisterMsg) (info : SuperPeerInfo) (ps : PeerState)
    (hlt : reg_msg.Node_id < ext.Special_NodeID)
    (hinfo : st.http_PeerID2Info.lookup reg_msg.Node_id = some info)
    (hps : st.http_PeerState.lookup info.PubKey = some ps) :
    ∃ out, Event_server_register ext st now reg_msg = .ok out ∧
      out.state.http_PeerID2Info = st.http_PeerID2Info ∧
      out.state.http_PeerState.lookup info.PubKey =
        some (Event_server_register.update now reg_msg ps).1 ∧
      out.should_push_nh = (Event_server_register.update now reg_msg ps).2.1 ∧
      out.should_push_peer = (Event_server_register.update now reg_msg ps).2.2.1 ∧
      out.should_push_superparams = (Event_server_register.update now reg_msg ps).2.2.2 := by
  unfold Event_server_register
  rw [Event_server_register.record_admitted ext st now reg_msg info ps hlt hinfo hps]
  refine ⟨_, rfl, rfl, ?_, rfl, rfl, rfl⟩
  show AList.lookup info.PubKey (AList.insert info.PubKey _ st.http_PeerState) = _
  rw [AList.lookup_insert]

/-- C4: handling a Register event of an admitted peer (node id below
`Special_NodeID`, record present) succeeds; afterwards the record holds the
event's `JWTSecret` and `HttpPostCount` (and `LastSeen = now`), its three
client-hash fields equal the three reported hashes, and each of
`should_push_nh`, `should_push_peer`, `should_push_superparams` is set exactly
when the reported hash differed from the value stored before.  A second Register
of the same node with the same three hashes then sets none of the three flags. -/
theorem Event_server_register_admitted {T : Types} (ext : Ext T) (st : HttpObj T)
    (now : Time) (reg_msg : RegisterMsg) (info : SuperPeerInfo) (ps : PeerState)
    (hlt : reg_msg.Node_id < ext.Special_NodeID)
    (hinfo : st.http_PeerID2Info.lookup reg_msg.Node_id = some info)
    (hps : st.http_PeerState.lookup info.PubKey = some ps) :
    ∃ out, Event_server_register ext st now reg_msg = .ok out ∧
      (∃ ps', out.state.http_PeerState.lookup info.PubKey = some ps' ∧
        ps'.JETSecret = reg_msg.JWTSecret ∧
        ps'.httpPostCount = reg_msg.HttpPostCount ∧
        ps'.LastSeen = now ∧
        ps'.NhTableState = reg_msg.NhStateHash ∧
        ps'.PeerInfoState = reg_msg.PeerStateHash ∧
        ps'.SuperParamStateClient = reg_msg.SuperParamStateHash) ∧
      (out.should_push_nh = true ↔ reg_msg.NhStateHash ≠ ps.NhTableState) ∧
      (out.should_push_peer = true ↔ reg_msg.PeerStateHash ≠ ps.PeerInfoState) ∧
      (out.should_push_superparams = true ↔
        reg_msg.SuperParamStateHash ≠ ps.SuperParamStateClient) ∧
      (∀ (now2 : Time) (reg2 : RegisterMsg),
        reg2.Node_id = reg_msg.Node_id →
        reg2.NhStateHash = reg_msg.NhStateHash →
        reg2.PeerStateHash = reg_msg.PeerStateHash →
        reg2.SuperParamStateHash = reg_msg.SuperParamStateHash →
        ∃ out2, Event_server_register ext out.state now2 reg2 = .ok out2 ∧
          out2.should_push_nh = false ∧
          out2.should_push_peer = false ∧
          out2.should_push_superparams = false) := by
  obtain ⟨out, hout, hid, hst, hf1, hf2, hf3⟩ :=
    Event_server_register.admitted_core ext st now reg_msg info ps hlt hinfo hps
  have hflags := Event_server_register.update_flags now reg_msg ps
  have hfields := Event_server_register.update_fields now reg_msg ps
  refine ⟨out, hout, ⟨_, hst, ?_⟩, ?_, ?_, ?_, ?_⟩
  · rw [hfields]
    exact ⟨rfl, rfl, rfl, rfl, rfl, rfl⟩
  · rw [hf1]; exact hflags.1
  · rw [hf2]; exact hflags.2.1
  · rw [hf3]; exact hflags.2.2
  · intro now2 reg2 hn h1 h2 h3
    have hlt2 : reg2.Node_id < ext.Special_NodeID := by rw [hn]; exact hlt
    have hinfo2 : out.state.http_PeerID2Info.lookup reg2.Node_id = some info := by
      rw [hid, hn]; exact hinfo
    obtain ⟨out2, hout2, _, _, hg1, hg2, hg3⟩ :=
      Event_server_register.admitted_core ext out.state now2 reg2 info _ hlt2 hinfo2 hst
    have hflags2 := Event_server_register.update_flags now2 reg2
      (Event_server_register.update now reg_msg ps).1
    rw [hfields] at hflags2
    refine ⟨out2, hout2, ?_, ?_, ?_⟩
    · rw [hg1, hfields]
      cases hb : (Event_server_register.update now2 reg2 _).2.1 with
      | false => rfl
      | true => exact absurd h1 (hflags2.1.mp hb)
    · rw [hg2, hfields]
      cases hb : (Event_server_register.update now2 reg2 _).2.2.1 with
      | false => rfl
      | true => exact absurd h2 (hflags2.2.1.mp hb)
    · rw [hg3, hfields]
      cases hb : (Event_server_register.update now2 reg2 _).2.2.2 with
      | false => rfl
      | true => exact absurd h3 (hflags2.2.2.mp hb)

/-- Witness for C4: node 1 of the sample state registers with three new hashes;
the handler succeeds and marks the next-hop category. -/
theorem Event_server_register_admitted_witness :
    ∃ out, Event_server_register sampleExt stateTwoPeers 100 sampleRegister1 = .ok out ∧
      out.should_push_nh = true := by
  obtain ⟨out, hout, _, hnh, _⟩ :=
    Event_server_register_admitted sampleExt stateTwoPeers 100 sampleRegister1 samplePeer1
      samplePeerState (by decide) (by rfl) (by rfl)
  exact ⟨out, hout, hnh.mpr (by decide)⟩

/-! ### Sentinel events -/

theorem Event_server_pong_state_fields {T : Types} (ext : Ext T) (st : HttpObj T) (now : Time)
    (pong_msg : PongMsg) :
    (Event_server_pong ext st now pong_msg).state.http_PeerState = st.http_PeerState ∧
    (Event_server_pong ext st now pong_msg).state.http_PeerID2Info = st.http_PeerID2Info := by
  unfold Event_server_pong
  dsimp only
  split <;> exact ⟨rfl, rfl⟩

/-- C5: a Register event whose node id is at least `Special_NodeID` (the ticker's
sentinel carries `SuperNodeMessage`) is handled without a fault and leaves every
record of `http_PeerState` as it was; so does every Pong event, the sentinel Pong
included. -/
theorem sentinel_events_keep_records {T : Types} (ext : Ext T) (st : HttpObj T) (now : Time)
    (reg_msg : RegisterMsg) (pong_msg : PongMsg)
    (hge : ext.Special_NodeID ≤ reg_msg.Node_id) :
    (∃ out, Event_server_register ext st now reg_msg = .ok out ∧
      out.state.http_PeerState = st.http_PeerState) ∧
    (Event_server_pong ext st now pong_msg).state.http_PeerState = st.http_PeerState := by
  refine ⟨?_, (Event_server_pong_state_fields ext st now pong_msg).1⟩
  unfold Event_server_register
  rw [Event_server_register.record_sentinel ext st now reg_msg hge]
  exact ⟨_, rfl, rfl⟩

/-- Witness for C5: the two sentinel events of `RoutineTimeoutCheck` on the sample
state. -/
theorem sentinel_events_keep_records_witness :
    (∃ out, Event_server_register sampleExt stateTwoPeers 100
        (RoutineTimeoutCheck.events sampleExt).1 = .ok out ∧
      out.state.http_PeerState = stateTwoPeers.http_PeerState) ∧
    (Event_server_pong sampleExt stateTwoPeers 100
        (RoutineTimeoutCheck.events sampleExt).2).state.http_PeerState =
      stateTwoPeers.http_PeerState :=
  sentinel_events_keep_records sampleExt stateTwoPeers 100
    (RoutineTimeoutCheck.events sampleExt).1 (RoutineTimeoutCheck.events sampleExt).2
    (by decide)

/-! ### The Pong handler -/

theorem Event_server_pong.graph_calls_eq {T : Types} (ext : Ext T) (st : HttpObj T)
    (now : Time) (pong_msg : PongMsg) :
    (Event_server_pong ext st now pong_msg).graph_calls =
      (Event_server_pong.graph ext st now pong_msg).2.2 ++
        (if (Event_server_pong.graph ext st now pong_msg).1 = true
          then [GraphCall.GetNHTable true] else []) ∧
    (Event_server_pong ext st now pong_msg).changed =
      (Event_server_pong.graph ext st now pong_msg).1 := by
  unfold Event_server_pong
  dsimp only
  split
  · exact ⟨rfl, rfl⟩
  · exact ⟨by simp, rfl⟩

theorem Event_server_pong.graph_roster {T : Types} (ext : Ext T) (st : HttpObj T)
    (now : Time) (pong_msg : PongMsg)
    (h : pong_msg.Src_nodeID < ext.Special_NodeID ∧ pong_msg.Dst_nodeID < ext.Special_NodeID) :
    Event_server_pong.graph ext st now pong_msg =
      ((ext.UpdateLatency st.http_graph now pong_msg.Src_nodeID pong_msg.Dst_nodeID
          pong_msg.Timediff pong_msg.TimeToAlive (AdditionalCost_use st pong_msg) true true).1,
        (ext.UpdateLatency st.http_graph now pong_msg.Src_nodeID pong_msg.Dst_nodeID
          pong_msg.Timediff pong_msg.TimeToAlive (AdditionalCost_use st pong_msg) true true).2,
        [GraphCall.UpdateLatency pong_msg.Src_nodeID pong_msg.Dst_nodeID pong_msg.Timediff
          pong_msg.TimeToAlive (AdditionalCost_use st pong_msg) true true]) := by
  unfold Event_server_pong.graph
  rw [if_pos h]

theorem Event_server_pong.graph_sentinel {T : Types} (ext : Ext T) (st : HttpObj T)
    (now : Time) (pong_msg : PongMsg)
    (h : ¬ (pong_msg.Src_nodeID < ext.Special_NodeID ∧
      pong_msg.Dst_nodeID < ext.Special_NodeID)) :
    (Event_server_pong.graph ext st now pong_msg).2.2 =
      if (ext.CheckAnyShouldUpdate st.http_graph now).1 = true
        then [GraphCall.CheckAnyShouldUpdate, GraphCall.RecalculateNhTable true]
        else [GraphCall.CheckAnyShouldUpdate] := by
  unfold Event_server_pong.graph
  rw [if_neg h]
  dsimp only
  split <;> rfl

theorem Event_server_pong_of_graph {T : Types} (ext : Ext T) (st : HttpObj T) (now : Time)
    (pong_msg : PongMsg) (changed : Bool) (g : T.Graph) (calls : List GraphCall)
    (h : Event_server_pong.graph ext st now pong_msg = (changed, g, calls)) :
    (Event_server_pong ext st now pong_msg).changed = changed ∧
    (Event_server_pong ext st now pong_msg).state.http_graph =
      (if changed = true then (ext.GetNHTable g now true).2 else g) ∧
    (Event_server_pong ext st now pong_msg).state.http_NhTableStr =
      (if changed = true then ext.json_Marshal_NhTable (ext.GetNHTable g now true).1
        else st.http_NhTableStr) ∧
    (Event_server_pong ext st now pong_msg).state.http_NhTable_Hash =
      (if changed = true then
        ext.hex_EncodeToString (ext.md5_Sum
          (ext.json_Marshal_NhTable (ext.GetNHTable g now true).1 ++ st.http_HashSalt))
        else st.http_NhTable_Hash) := by
  unfold Event_server_pong
  rw [h]
  dsimp only
  cases changed with
  | true => exact ⟨rfl, rfl, rfl, rfl⟩
  | false => exact ⟨rfl, rfl, rfl, rfl⟩

theorem Event_server_pong.graph_tick {T : Types} (ext : Ext T) (st : HttpObj T)
    (now : Time) (pong_msg : PongMsg)
    (h : ¬ (pong_msg.Src_nodeID < ext.Special_NodeID ∧
      pong_msg.Dst_nodeID < ext.Special_NodeID)) :
    ((ext.CheckAnyShouldUpdate st.http_graph now).1 = true →
      Event_server_pong.graph ext st now pong_msg =
        ((ext.RecalculateNhTable (ext.CheckAnyShouldUpdate st.http_graph now).2 now true).1,
          (ext.RecalculateNhTable (ext.CheckAnyShouldUpdate st.http_graph now).2 now true).2,
          [GraphCall.CheckAnyShouldUpdate, GraphCall.RecalculateNhTable true])) ∧
    ((ext.CheckAnyShouldUpdate st.http_graph now).1 = false →
      Event_server_pong.graph ext st now pong_msg =
        (false, (ext.CheckAnyShouldUpdate st.http_graph now).2,
          [GraphCall.CheckAnyShouldUpdate])) := by
  unfold Event_server_pong.graph
  rw [if_neg h]
  dsimp only
  constructor
  · intro hc
    rw [if_pos hc]
  · intro hc
    rw [if_neg (by rw [hc]; simp)]

/-- C6 (as the code has it): the dispatcher calls `UpdateLatency` for a Pong
exactly when both node ids are below `Special_NodeID`, whether or not they are in
`http_PeerID2Info`: then `changed` is the result of `UpdateLatency` applied to the
stored graph with the Pong's arguments, and the graph afterwards is the one that
call returns (passed through `GetNHTable` when `changed`).  Exactly the other
Pongs are handled as a tick sentinel: their first graph call is
`CheckAnyShouldUpdate`, `RecalculateNhTable(true)` is called exactly when that
returned true, `changed` is the result of that recompute (false without it), and
the graph afterwards comes from the stored graph through `CheckAnyShouldUpdate`,
`RecalculateNhTable` and `GetNHTable` only, with no `UpdateLatency`. -/
theorem pong_update_latency_iff_below_special {T : Types} (ext : Ext T) (st : HttpObj T)
    (now : Time) (pong_msg : PongMsg) :
    ((∃ c ∈ (Event_server_pong ext st now pong_msg).graph_calls, c.isUpdateLatency = true) ↔
      (pong_msg.Src_nodeID < ext.Special_NodeID ∧
        pong_msg.Dst_nodeID < ext.Special_NodeID)) ∧
    ((Event_server_pong ext st now pong_msg).graph_calls.head? =
        some GraphCall.CheckAnyShouldUpdate ↔
      ¬ (pong_msg.Src_nodeID < ext.Special_NodeID ∧
        pong_msg.Dst_nodeID < ext.Special_NodeID)) ∧
    (GraphCall.RecalculateNhTable true ∈ (Event_server_pong ext st now pong_msg).graph_calls ↔
      (¬ (pong_msg.Src_nodeID < ext.Special_NodeID ∧
          pong_msg.Dst_nodeID < ext.Special_NodeID) ∧
        (ext.CheckAnyShouldUpdate st.http_graph now).1 = true)) ∧
    ((pong_msg.Src_nodeID < ext.Special_NodeID ∧ pong_msg.Dst_nodeID < ext.Special_NodeID) →
      (Event_server_pong ext st now pong_msg).changed =
        (ext.UpdateLatency st.http_graph now pong_msg.Src_nodeID pong_msg.Dst_nodeID
          pong_msg.Timediff pong_msg.TimeToAlive (AdditionalCost_use st pong_msg) true true).1 ∧
      (Event_server_pong ext st now pong_msg).state.http_graph =
        (if (ext.UpdateLatency st.http_graph now pong_msg.Src_nodeID pong_msg.Dst_nodeID
            pong_msg.Timediff pong_msg.TimeToAlive (AdditionalCost_use st pong_msg) true
            true).1 = true
          then (ext.GetNHTable
            (ext.UpdateLatency st.http_graph now pong_msg.Src_nodeID pong_msg.Dst_nodeID
              pong_msg.Timediff pong_msg.TimeToAlive (AdditionalCost_use st pong_msg) true
              true).2 now true).2
          else (ext.UpdateLatency st.http_graph now pong_msg.Src_nodeID pong_msg.Dst_nodeID
            pong_msg.Timediff pong_msg.TimeToAlive (AdditionalCost_use st pong_msg) true
            true).2)) ∧
    (¬ (pong_msg.Src_nodeID < ext.Special_NodeID ∧
        pong_msg.Dst_nodeID < ext.Special_NodeID) →
      (Event_server_pong ext st now pong_msg).changed =
        ((ext.CheckAnyShouldUpdate st.http_graph now).1 &&
          (ext.RecalculateNhTable (ext.CheckAnyShouldUpdate st.http_graph now).2 now
            true).1) ∧
      (Event_server_pong ext st now pong_msg).state.http_graph =
        (if (ext.CheckAnyShouldUpdate st.http_graph now).1 = true then
          (if (ext.RecalculateNhTable (ext.CheckAnyShouldUpdate st.http_graph now).2 now
              true).1 = true
            then (ext.GetNHTable
              (ext.RecalculateNhTable (ext.CheckAnyShouldUpdate st.http_graph now).2 now
                true).2 now true).2
            else (ext.RecalculateNhTable (ext.CheckAnyShouldUpdate st.http_graph now).2 now
              true).2)
          else (ext.CheckAnyShouldUpdate st.http_graph now).2)) := by
  have hcalls : ((∃ c ∈ (Event_server_pong ext st now pong_msg).graph_calls,
        c.isUpdateLatency = true) ↔
        (pong_msg.Src_nodeID < ext.Special_NodeID ∧
          pong_msg.Dst_nodeID < ext.Special_NodeID)) ∧
      ((Event_server_pong ext st now pong_msg).graph_calls.head? =
          some GraphCall.CheckAnyShouldUpdate ↔
        ¬ (pong_msg.Src_nodeID < ext.Special_NodeID ∧
          pong_msg.Dst_nodeID < ext.Special_NodeID)) ∧
      (GraphCall.RecalculateNhTable true ∈
          (Event_server_pong ext st now pong_msg).graph_calls ↔
        (¬ (pong_msg.Src_nodeID < ext.Special_NodeID ∧
            pong_msg.Dst_nodeID < ext.Special_NodeID) ∧
          (ext.CheckAnyShouldUpdate st.http_graph now).1 = true)) := by
    rw [(Event_server_pong.graph_calls_eq ext st now pong_msg).1]
    by_cases h : pong_msg.Src_nodeID < ext.Special_NodeID ∧
        pong_msg.Dst_nodeID < ext.Special_NodeID
    · rw [Event_server_pong.graph_roster ext st now pong_msg h]
      simp only [h]
      split <;> simp [GraphCall.isUpdateLatency]
    · obtain ⟨t1, t2⟩ := Event_server_pong.graph_tick ext st now pong_msg h
      cases hc : (ext.CheckAnyShouldUpdate st.http_graph now).1 with
      | true =>
        rw [t1 hc]
        simp only [h]
        split <;> simp [GraphCall.isUpdateLatency]
      | false =>
        rw [t2 hc]
        simp [h, GraphCall.isUpdateLatency]
  refine ⟨hcalls.1, hcalls.2.1, hcalls.2.2, ?_, ?_⟩
  · intro h
    obtain ⟨e1, e2, _, _⟩ := Event_server_pong_of_graph ext st now pong_msg _ _ _
      (Event_server_pong.graph_roster ext st now pong_msg h)
    exact ⟨e1, e2⟩
  · intro h
    obtain ⟨t1, t2⟩ := Event_server_pong.graph_tick ext st now pong_msg h
    cases hc : (ext.CheckAnyShouldUpdate st.http_graph now).1 with
    | true =>
      obtain ⟨e1, e2, _, _⟩ := Event_server_pong_of_graph ext st now pong_msg _ _ _ (t1 hc)
      rw [e1, e2]
      simp
    | false =>
      obtain ⟨e1, e2, _, _⟩ := Event_server_pong_of_graph ext st now pong_msg _ _ _ (t2 hc)
      rw [e1, e2]
      simp

/-- C6 as stated fails: after node 1 was removed by `super_peerdel` it has no
entry in `http_PeerID2Info`, yet for a Pong from node 1 about node 2 the
dispatcher applies `UpdateLatency`: the edge from 1 to 2 is written to the graph,
which was empty before, and `changed` is what `UpdateLatency` returned. -/
theorem pong_removed_vertex_still_updates :
    stateTwoPeersDel1.http_PeerID2Info.lookup samplePong12.Src_nodeID = none ∧
    stateTwoPeersDel1.http_graph = [] ∧
    (Event_server_pong sampleExt stateTwoPeersDel1 100 samplePong12).state.http_graph =
      [(1, 2, 5)] ∧
    (Event_server_pong sampleExt stateTwoPeersDel1 100 samplePong12).changed =
      (sampleExt.UpdateLatency stateTwoPeersDel1.http_graph 100 1 2 5 (.num 3) (.num 4)
        true true).1 ∧
    ¬ ((∃ c ∈ (Event_server_pong sampleExt stateTwoPeersDel1 100 samplePong12).graph_calls,
          c.isUpdateLatency = true) ↔
        ((stateTwoPeersDel1.http_PeerID2Info.lookup samplePong12.Src_nodeID).isSome = true ∧
          (stateTwoPeersDel1.http_PeerID2Info.lookup samplePong12.Dst_nodeID).isSome = true)) := by
  refine ⟨by rfl, by rfl, by rfl, by rfl, by decide⟩

theorem AdditionalCost_use_of_lookup {T : Types} (st : HttpObj T) (pong_msg : PongMsg)
    (dstInfo : SuperPeerInfo)
    (hdst : st.http_PeerID2Info.lookup pong_msg.Dst_nodeID = some dstInfo) :
    (dstInfo.AdditionalCost.geZero = true →
      AdditionalCost_use st pong_msg = dstInfo.AdditionalCost) ∧
    (dstInfo.AdditionalCost.ltZero = true →
      AdditionalCost_use st pong_msg = pong_msg.AdditionalCost) := by
  unfold AdditionalCost_use
  rw [lookupInfo_of_lookup_some _ _ _ hdst]
  dsimp only
  constructor
  · intro hge
    have hnlt : ¬ (dstInfo.AdditionalCost.ltZero = true) := by
      cases hc : dstInfo.AdditionalCost with
      | nan => simp [Float64.ltZero]
      | num q =>
        rw [hc] at hge
        simp only [Float64.geZero, decide_eq_true_eq] at hge
        simp only [Float64.ltZero, decide_eq_true_eq, not_lt]
        exact hge
      | inf neg =>
        rw [hc] at hge
        cases neg <;> simp [Float64.geZero, Float64.ltZero] at hge ⊢
    rw [if_neg hnlt]
  · intro hlt
    rw [if_pos hlt]

/-- C7: for a Pong whose destination is a roster vertex (as it is for a Pong
between two roster vertices), every `UpdateLatency` call the dispatcher makes has the Pong's `Src_nodeID`, `Dst_nodeID`, `Timediff` and
`TimeToAlive` unmodified, `recalculate = checkchange = true`, and as additional
cost the roster's `AdditionalCost` of the destination when that is `>= 0` and the
Pong's own `AdditionalCost` when the roster value is `< 0`; that call is made
(and its result is `changed`) when both ids are below `Special_NodeID`. -/
theorem pong_update_latency_arguments {T : Types} (ext : Ext T) (st : HttpObj T) (now : Time)
    (pong_msg : PongMsg) (dstInfo : SuperPeerInfo)
    (hdst : st.http_PeerID2Info.lookup pong_msg.Dst_nodeID = some dstInfo) :
    ∃ cost : Float64,
      (dstInfo.AdditionalCost.geZero = true → cost = dstInfo.AdditionalCost) ∧
      (dstInfo.AdditionalCost.ltZero = true → cost = pong_msg.AdditionalCost) ∧
      (∀ c ∈ (Event_server_pong ext st now pong_msg).graph_calls, c.isUpdateLatency = true →
        c = GraphCall.UpdateLatency pong_msg.Src_nodeID pong_msg.Dst_nodeID pong_msg.Timediff
          pong_msg.TimeToAlive cost true true) ∧
      (pong_msg.Src_nodeID < ext.Special_NodeID → pong_msg.Dst_nodeID < ext.Special_NodeID →
        GraphCall.UpdateLatency pong_msg.Src_nodeID pong_msg.Dst_nodeID pong_msg.Timediff
            pong_msg.TimeToAlive cost true true ∈
          (Event_server_pong ext st now pong_msg).graph_calls ∧
        (Event_server_pong ext st now pong_msg).changed =
          (ext.UpdateLatency st.http_graph now pong_msg.Src_nodeID pong_msg.Dst_nodeID
            pong_msg.Timediff pong_msg.TimeToAlive cost true true).1) := by
  have hcost := AdditionalCost_use_of_lookup st pong_msg dstInfo hdst
  refine ⟨AdditionalCost_use st pong_msg, hcost.1, hcost.2, ?_, ?_⟩
  · intro c hc hup
    rw [(Event_server_pong.graph_calls_eq ext st now pong_msg).1] at hc
    by_cases h : pong_msg.Src_nodeID < ext.Special_NodeID ∧
        pong_msg.Dst_nodeID < ext.Special_NodeID
    · rw [Event_server_pong.graph_roster ext st now pong_msg h] at hc
      rcases List.mem_append.mp hc with h1 | h1
      · exact List.mem_singleton.mp h1
      · split at h1
        · rw [List.mem_singleton.mp h1] at hup
          simp [GraphCall.isUpdateLatency] at hup
        · simp at h1
    · rcases List.mem_append.mp hc with h1 | h1
      · rw [Event_server_pong.graph_sentinel ext st now pong_msg h] at h1
        split at h1
        · simp only [List.mem_cons, List.mem_singleton, List.not_mem_nil, or_false] at h1
          rcases h1 with rfl | rfl <;> simp [GraphCall.isUpdateLatency] at hup
        · rw [List.mem_singleton.mp h1] at hup
          simp [GraphCall.isUpdateLatency] at hup
      · split at h1
        · rw [List.mem_singleton.mp h1] at hup
          simp [GraphCall.isUpdateLatency] at hup
        · simp at h1
  · intro h1 h2
    rw [(Event_server_pong.graph_calls_eq ext st now pong_msg).1,
      (Event_server_pong.graph_calls_eq ext st now pong_msg).2,
      Event_server_pong.graph_roster ext st now pong_msg ⟨h1, h2⟩]
    exact ⟨List.mem_append_left _ (List.mem_singleton.mpr rfl), rfl⟩

/-- Witness for C7: in the sample state node 2 has a negative roster cost, so a
Pong from node 1 about node 2 passes on the Pong's own cost. -/
theorem pong_update_latency_arguments_witness :
    GraphCall.UpdateLatency 1 2 5 (.num 3) (.num 4) true true ∈
      (Event_server_pong sampleExt stateTwoPeers 100 samplePong12).graph_calls := by
  obtain ⟨cost, _, hlt, _, hcall⟩ :=
    pong_update_latency_arguments sampleExt stateTwoPeers 100 samplePong12 samplePeer2
      (by rfl)
  have hc : cost = samplePong12.AdditionalCost := hlt (by decide)
  have h := (hcall (by decide) (by decide)).1
  rw [hc] at h
  exact h

/-- C8: after a Pong event is handled, the stored table string and
`http_NhTable_Hash` agree with what the graph reported.  The graph's report
`changed` is the result of `UpdateLatency` when both node ids are below
`Special_NodeID`, otherwise the result of `RecalculateNhTable(true)` when
`CheckAnyShouldUpdate` returned true, otherwise false.  When it is true,
`http_NhTableStr` is the serialisation of the table `GetNHTable` returns on the
graph that call left behind and `http_NhTable_Hash` is the hex MD5 of that
serialisation followed by the salt; when it is false, both are what they were
before the event, and the stored graph is the graph the call left behind. -/
theorem pong_hash_and_table_agree {T : Types} (ext : Ext T) (st : HttpObj T) (now : Time)
    (pong_msg : PongMsg) :
    ∃ (changed : Bool) (g : T.Graph),
      ((pong_msg.Src_nodeID < ext.Special_NodeID ∧
          pong_msg.Dst_nodeID < ext.Special_NodeID) →
        changed = (ext.UpdateLatency st.http_graph now pong_msg.Src_nodeID
          pong_msg.Dst_nodeID pong_msg.Timediff pong_msg.TimeToAlive
          (AdditionalCost_use st pong_msg) true true).1 ∧
        g = (ext.UpdateLatency st.http_graph now pong_msg.Src_nodeID
          pong_msg.Dst_nodeID pong_msg.Timediff pong_msg.TimeToAlive
          (AdditionalCost_use st pong_msg) true true).2) ∧
      (¬ (pong_msg.Src_nodeID < ext.Special_NodeID ∧
          pong_msg.Dst_nodeID < ext.Special_NodeID) →
        (ext.CheckAnyShouldUpdate st.http_graph now).1 = true →
        changed = (ext.RecalculateNhTable (ext.CheckAnyShouldUpdate st.http_graph now).2
          now true).1 ∧
        g = (ext.RecalculateNhTable (ext.CheckAnyShouldUpdate st.http_graph now).2
          now true).2) ∧
      (¬ (pong_msg.Src_nodeID < ext.Special_NodeID ∧
          pong_msg.Dst_nodeID < ext.Special_NodeID) →
        (ext.CheckAnyShouldUpdate st.http_graph now).1 = false →
        changed = false ∧ g = (ext.CheckAnyShouldUpdate st.http_graph now).2) ∧
      (Event_server_pong ext st now pong_msg).changed = changed ∧
      (changed = true →
        (Event_server_pong ext st now pong_msg).state.http_NhTableStr =
          ext.json_Marshal_NhTable (ext.GetNHTable g now true).1 ∧
        (Event_server_pong ext st now pong_msg).state.http_NhTable_Hash =
          ext.hex_EncodeToString (ext.md5_Sum
            (ext.json_Marshal_NhTable (ext.GetNHTable g now true).1 ++ st.http_HashSalt)) ∧
        (Event_server_pong ext st now pong_msg).state.http_graph =
          (ext.GetNHTable g now true).2) ∧
      (changed = false →
        (Event_server_pong ext st now pong_msg).state.http_NhTableStr = st.http_NhTableStr ∧
        (Event_server_pong ext st now pong_msg).state.http_NhTable_Hash =
          st.http_NhTable_Hash ∧
        (Event_server_pong ext st now pong_msg).state.http_graph = g) := by
  have fin : ∀ (changed : Bool) (g : T.Graph) (calls : List GraphCall),
      Event_server_pong.graph ext st now pong_msg = (changed, g, calls) →
      (Event_server_pong ext st now pong_msg).changed = changed ∧
      (changed = true →
        (Event_server_pong ext st now pong_msg).state.http_NhTableStr =
          ext.json_Marshal_NhTable (ext.GetNHTable g now true).1 ∧
        (Event_server_pong ext st now pong_msg).state.http_NhTable_Hash =
          ext.hex_EncodeToString (ext.md5_Sum
            (ext.json_Marshal_NhTable (ext.GetNHTable g now true).1 ++ st.http_HashSalt)) ∧
        (Event_server_pong ext st now pong_msg).state.http_graph =
          (ext.GetNHTable g now true).2) ∧
      (changed = false →
        (Event_server_pong ext st now pong_msg).state.http_NhTableStr = st.http_NhTableStr ∧
        (Event_server_pong ext st now pong_msg).state.http_NhTable_Hash =
          st.http_NhTable_Hash ∧
        (Event_server_pong ext st now pong_msg).state.http_graph = g) := by
    intro changed g calls hg
    obtain ⟨e1, e2, e3, e4⟩ := Event_server_pong_of_graph ext st now pong_msg changed g calls hg
    refine ⟨e1, ?_, ?_⟩
    · intro hc
      rw [e2, e3, e4, if_pos hc, if_pos hc, if_pos hc]
      exact ⟨rfl, rfl, rfl⟩
    · intro hc
      have hne : ¬ (changed = true) := by rw [hc]; simp
      rw [e2, e3, e4, if_neg hne, if_neg hne, if_neg hne]
      exact ⟨rfl, rfl, rfl⟩
  by_cases h : pong_msg.Src_nodeID < ext.Special_NodeID ∧
      pong_msg.Dst_nodeID < ext.Special_NodeID
  · obtain ⟨f1, f2, f3⟩ := fin _ _ _ (Event_server_pong.graph_roster ext st now pong_msg h)
    exact ⟨_, _, fun _ => ⟨rfl, rfl⟩, fun hn => absurd h hn, fun hn => absurd h hn, f1, f2, f3⟩
  · obtain ⟨t1, t2⟩ := Event_server_pong.graph_tick ext st now pong_msg h
    cases hc : (ext.CheckAnyShouldUpdate st.http_graph now).1 with
    | true =>
      obtain ⟨f1, f2, f3⟩ := fin _ _ _ (t1 hc)
      exact ⟨_, _, fun hp => absurd hp h, fun _ _ => ⟨rfl, rfl⟩,
        fun _ hf => (by cases hf), f1, f2, f3⟩
    | false =>
      obtain ⟨f1, f2, f3⟩ := fin _ _ _ (t2 hc)
      exact ⟨_, _, fun hp => absurd hp h, fun _ ht => (by cases ht),
        fun _ _ => ⟨rfl, rfl⟩, f1, f2, f3⟩

/-- Witness for C8: the first Pong about the edge from node 1 to node 2 changes
the sample graph; the stored hash is the salted hash of the new table and the
stored graph holds the new edge. -/
theorem pong_hash_and_table_agree_witness :
    (Event_server_pong sampleExt stateTwoPeers 100 samplePong12).state.http_NhTable_Hash =
      saltedHash sampleExt
        (sampleExt.json_Marshal_NhTable (sampleNhTable [(1, 2, 5)])) [7] ∧
    (Event_server_pong sampleExt stateTwoPeers 100 samplePong12).state.http_graph =
      [(1, 2, 5)] := by
  obtain ⟨changed, g, h1, _, _, _, h5, _⟩ :=
    pong_hash_and_table_agree sampleExt stateTwoPeers 100 samplePong12
  obtain ⟨hc, hg⟩ := h1 (by decide)
  have hc2 : changed = true := hc
  have hg2 : g = [(1, 2, 5)] := hg
  obtain ⟨_, e2, e3⟩ := h5 hc2
  rw [hg2] at e2 e3
  exact ⟨e2, e3⟩

/-! ### The registry indexes -/

/-- On an error `super_peeradd` leaves both indexes as they were; on success it
sets `http_PeerID2Info[NodeID]` and `http_PeerState[PubKey]`. -/
theorem super_peeradd_registry {T : Types} (ext : Ext T) (st : HttpObj T)
    (peerconf : SuperPeerInfo) :
    ((super_peeradd ext st peerconf).2 ≠ none ∧
      (super_peeradd ext st peerconf).1.http_PeerID2Info = st.http_PeerID2Info ∧
      (super_peeradd ext st peerconf).1.http_PeerState = st.http_PeerState) ∨
    ((super_peeradd ext st peerconf).2 = none ∧
      (super_peeradd ext st peerconf).1.http_PeerID2Info =
        AList.insert peerconf.NodeID peerconf st.http_PeerID2Info ∧
      ∃ PS, (super_peeradd ext st peerconf).1.http_PeerState =
        AList.insert peerconf.PubKey PS st.http_PeerState) := by
  unfold super_peeradd
  generalize ext.Str2PubKey peerconf.PubKey = r0
  obtain ⟨pk, e0⟩ := r0
  cases e0 with
  | some err => exact Or.inl ⟨by simp, rfl, rfl⟩
  | none =>
    dsimp only
    generalize super_peeradd.family ext st.http_sconfig.PrivKeyV4 st.http_device4 pk peerconf = r4
    obtain ⟨dev4, e4⟩ := r4
    cases e4 with
    | some err => exact Or.inl ⟨by simp, rfl, rfl⟩
    | none =>
      dsimp only
      generalize super_peeradd.family ext st.http_sconfig.PrivKeyV6 st.http_device6 pk
        peerconf = r6
      obtain ⟨dev6, e6⟩ := r6
      cases e6 with
      | some err => exact Or.inl ⟨by simp, rfl, rfl⟩
      | none => exact Or.inr ⟨rfl, rfl, _, rfl⟩

theorem super_peerdel_registry {T : Types} (st : HttpObj T) (toDelete : Vertex) :
    (st.http_PeerID2Info.lookup toDelete = none ∧ (super_peerdel st toDelete).1 = st) ∨
    (∃ info, st.http_PeerID2Info.lookup toDelete = some info ∧
      (super_peerdel st toDelete).1.http_PeerID2Info =
        AList.erase toDelete st.http_PeerID2Info ∧
      (super_peerdel st toDelete).1.http_PeerState =
        AList.erase info.PubKey st.http_PeerState) := by
  unfold super_peerdel
  cases h : st.http_PeerID2Info.lookup toDelete with
  | none => exact Or.inl ⟨rfl, rfl⟩
  | some info => exact Or.inr ⟨info, rfl, rfl, rfl⟩

theorem lookup_isSome_insert {V : Type} (m : GoMap String V) (k k2 : String) (v : V) :
    ((AList.insert k v m).lookup k2).isSome = true ↔ k2 = k ∨ (m.lookup k2).isSome = true := by
  by_cases h : k2 = k
  · subst h
    simp [AList.lookup_insert]
  · simp [AList.lookup_insert_ne h, h]

theorem RegistryConsistent_insert {T : Types} (st st2 : HttpObj T) (peerconf : SuperPeerInfo)
    (PS : PeerState) (hc : RegistryConsistent st) (hf : AddFresh st peerconf)
    (h1 : st2.http_PeerID2Info = AList.insert peerconf.NodeID peerconf st.http_PeerID2Info)
    (h2 : st2.http_PeerState = AList.insert peerconf.PubKey PS st.http_PeerState) :
    RegistryConsistent st2 := by
  obtain ⟨ha, hb⟩ := hc
  obtain ⟨hfid, hfpk⟩ := hf
  have hlk : ∀ id info, st2.http_PeerID2Info.lookup id = some info →
      (id = peerconf.NodeID ∧ info = peerconf) ∨
      (id ≠ peerconf.NodeID ∧ st.http_PeerID2Info.lookup id = some info) := by
    intro id info h
    rw [h1] at h
    by_cases hid : id = peerconf.NodeID
    · subst hid
      rw [AList.lookup_insert] at h
      exact Or.inl ⟨rfl, (Option.some.inj h).symm⟩
    · rw [AList.lookup_insert_ne hid] at h
      exact Or.inr ⟨hid, h⟩
  have hold : ∀ id info, st.http_PeerID2Info.lookup id = some info →
      info.PubKey ≠ peerconf.PubKey := by
    intro id info h heq
    have := ha id info h
    rw [heq, hfpk] at this
    simp at this
  constructor
  · intro id info h
    rw [h2, lookup_isSome_insert]
    rcases hlk id info h with ⟨_, rfl⟩ | ⟨_, hl⟩
    · exact Or.inl rfl
    · exact Or.inr (ha id info hl)
  · intro pk hpk
    rw [h2, lookup_isSome_insert] at hpk
    by_cases hk : pk = peerconf.PubKey
    · subst hk
      refine ⟨peerconf.NodeID, ⟨peerconf, ?_, rfl⟩, ?_⟩
      · rw [h1, AList.lookup_insert]
      · rintro id ⟨info, hl, hp⟩
        rcases hlk id info hl with ⟨hid, _⟩ | ⟨_, hl2⟩
        · exact hid
        · exact absurd hp (hold id info hl2)
    · rcases hpk with hpk | hpk
      · exact absurd hpk hk
      · obtain ⟨id, ⟨info, hl, hp⟩, huniq⟩ := hb pk hpk
        have hne : id ≠ peerconf.NodeID := by
          intro heq
          rw [heq, hfid] at hl
          cases hl
        refine ⟨id, ⟨info, ?_, hp⟩, ?_⟩
        · rw [h1, AList.lookup_insert_ne hne]
          exact hl
        · rintro id2 ⟨info2, hl2, hp2⟩
          rcases hlk id2 info2 hl2 with ⟨_, rfl⟩ | ⟨_, hl3⟩
          · exact absurd hp2.symm hk
          · exact huniq id2 ⟨info2, hl3, hp2⟩

theorem RegistryConsistent_erase {T : Types} (st st2 : HttpObj T) (toDelete : Vertex)
    (info : SuperPeerInfo) (hc : RegistryConsistent st)
    (hl : st.http_PeerID2Info.lookup toDelete = some info)
    (h1 : st2.http_PeerID2Info = AList.erase toDelete st.http_PeerID2Info)
    (h2 : st2.http_PeerState = AList.erase info.PubKey st.http_PeerState) :
    RegistryConsistent st2 := by
  obtain ⟨ha, hb⟩ := hc
  have hlk : ∀ id info2, st2.http_PeerID2Info.lookup id = some info2 →
      id ≠ toDelete ∧ st.http_PeerID2Info.lookup id = some info2 := by
    intro id info2 h
    rw [h1] at h
    by_cases hid : id = toDelete
    · subst hid
      rw [AList.lookup_erase] at h
      cases h
    · rw [AList.lookup_erase_ne hid] at h
      exact ⟨hid, h⟩
  have hpk : ∀ id info2, id ≠ toDelete → st.http_PeerID2Info.lookup id = some info2 →
      info2.PubKey ≠ info.PubKey := by
    intro id info2 hid h heq
    obtain ⟨id0, _, huniq⟩ := hb info.PubKey (ha toDelete info hl)
    have e1 := huniq id ⟨info2, h, heq⟩
    have e2 := huniq toDelete ⟨info, hl, rfl⟩
    exact hid (e1.trans e2.symm)
  constructor
  · intro id info2 h
    obtain ⟨hid, hl2⟩ := hlk id info2 h
    rw [h2, AList.lookup_erase_ne (hpk id info2 hid hl2)]
    exact ha id info2 hl2
  · intro pk hsome
    rw [h2] at hsome
    have hk : pk ≠ info.PubKey := by
      intro heq
      rw [heq, AList.lookup_erase] at hsome
      simp at hsome
    rw [AList.lookup_erase_ne hk] at hsome
    obtain ⟨id, ⟨info2, hl2, hp⟩, huniq⟩ := hb pk hsome
    have hne : id ≠ toDelete := by
      intro heq
      rw [heq, hl] at hl2
      cases hl2
      exact hk hp.symm
    refine ⟨id, ⟨info2, ?_, hp⟩, ?_⟩
    · rw [h1, AList.lookup_erase_ne hne]
      exact hl2
    · rintro id2 ⟨info3, hl3, hp3⟩
      exact huniq id2 ⟨info3, (hlk id2 info3 hl3).2, hp3⟩

theorem RegistryConsistent_congr {T : Types} (st st2 : HttpObj T) (hc : RegistryConsistent st)
    (h1 : st2.http_PeerID2Info = st.http_PeerID2Info)
    (h2 : st2.http_PeerState = st.http_PeerState) : RegistryConsistent st2 := by
  unfold RegistryConsistent at *
  rw [h1, h2]
  exact hc

theorem RegistryConsistent_runOps {T : Types} (ext : Ext T) (ops : List RegistryOp) :
    ∀ st : HttpObj T, RegistryConsistent st → OpsFresh ext st ops →
      RegistryConsistent (runOps ext st ops) := by
  induction ops with
  | nil => intro st hc _; exact hc
  | cons op ops ih =>
    intro st hc hf
    cases op with
    | add peerconf =>
      obtain ⟨hfr, hrest⟩ := hf
      refine ih _ ?_ hrest
      show RegistryConsistent (super_peeradd ext st peerconf).1
      rcases super_peeradd_registry ext st peerconf with ⟨_, h1, h2⟩ | ⟨hok, h1, PS, h2⟩
      · exact RegistryConsistent_congr st _ hc h1 h2
      · exact RegistryConsistent_insert st _ peerconf PS hc (hfr hok) h1 h2
    | del toDelete =>
      refine ih _ ?_ hf
      show RegistryConsistent (super_peerdel st toDelete).1
      rcases super_peerdel_registry st toDelete with ⟨_, h⟩ | ⟨info, hl, h1, h2⟩
      · rw [h]; exact hc
      · exact RegistryConsistent_erase st _ toDelete info hc hl h1 h2

/-- C9 (as the code has it): starting from the empty registry, after any sequence
of `super_peeradd` and `super_peerdel` calls in which every successful
`super_peeradd` admits a node id and a public key that are not in the registry
at that point, the two indexes are consistent; `super_peerdel` of an admitted
node id removes its entry from both indexes, and `super_peerdel` of an unknown
node id changes nothing. -/
theorem registry_consistent_after_fresh_ops {T : Types} (ext : Ext T) (st0 : HttpObj T)
    (ops : List RegistryOp)
    (h1 : st0.http_PeerID2Info = ∅) (h2 : st0.http_PeerState = ∅)
    (hf : OpsFresh ext st0 ops) :
    RegistryConsistent (runOps ext st0 ops) ∧
    (∀ (st : HttpObj T) (toDelete : Vertex) (info : SuperPeerInfo),
      st.http_PeerID2Info.lookup toDelete = some info →
        (super_peerdel st toDelete).1.http_PeerID2Info.lookup toDelete = none ∧
        (super_peerdel st toDelete).1.http_PeerState.lookup info.PubKey = none) ∧
    (∀ (st : HttpObj T) (toDelete : Vertex),
      st.http_PeerID2Info.lookup toDelete = none → (super_peerdel st toDelete).1 = st) := by
  refine ⟨RegistryConsistent_runOps ext ops st0 ?_ hf, ?_, ?_⟩
  · constructor
    · intro id info h
      rw [h1, AList.lookup_empty] at h
      cases h
    · intro pk h
      rw [h2, AList.lookup_empty] at h
      simp at h
  · intro st toDelete info hl
    rcases super_peerdel_registry st toDelete with ⟨hn, _⟩ | ⟨info2, hl2, e1, e2⟩
    · rw [hl] at hn; cases hn
    · rw [hl] at hl2
      cases hl2
      rw [e1, e2]
      exact ⟨AList.lookup_erase _ _, AList.lookup_erase _ _⟩
  · intro st toDelete hl
    rcases super_peerdel_registry st toDelete with ⟨_, h⟩ | ⟨info2, hl2, _, _⟩
    · exact h
    · rw [hl] at hl2; cases hl2

/-- Witness for C9: nodes 1 and 2 are admitted under different keys, then node 1
is removed. -/
theorem registry_consistent_after_fresh_ops_witness :
    RegistryConsistent (runOps sampleExt (initState sampleConfig)
      [RegistryOp.add samplePeer1, RegistryOp.add samplePeer2, RegistryOp.del 1]) :=
  (registry_consistent_after_fresh_ops sampleExt (initState sampleConfig)
    [RegistryOp.add samplePeer1, RegistryOp.add samplePeer2, RegistryOp.del 1] rfl rfl
    ⟨fun _ => ⟨rfl, rfl⟩, fun _ => ⟨rfl, rfl⟩, trivial⟩).1

/-- C9 as stated fails: with no own private key configured the devices are not
consulted, and admitting node 1 and then node 2 under the same public key leaves
one record that belongs to two node ids. -/
theorem registry_shared_key_not_consistent :
    ¬ RegistryConsistent (runOps sampleExt (initState sampleConfigNoKeys)
      [RegistryOp.add samplePeer1, RegistryOp.add samplePeer2SameKey]) := by
  rintro ⟨_, hb⟩
  obtain ⟨id, _, huniq⟩ := hb "A" (by rfl)
  have e1 : (1 : Vertex) = id := huniq 1 ⟨samplePeer1, by rfl, rfl⟩
  have e2 : (2 : Vertex) = id := huniq 2 ⟨samplePeer2SameKey, by rfl, rfl⟩
  exact absurd (e1.trans e2.symm) (by decide)

/-! ### Control packet headers -/

theorem pushHeader_fields {T : Types} (ext : Ext T) (body : Bytes) :
    (pushHeader ext body).Src = ext.SuperNodeMessage ∧
    (pushHeader ext body).Dst = ext.SuperNodeMessage ∧
    (pushHeader ext body).TTL = 0 ∧
    (pushHeader ext body).PacketLength = body.length % 65536 :=
  ⟨rfl, rfl, rfl, rfl⟩

theorem PushNhTable_header {T : Types} (ext : Ext T) (st : HttpObj T) (now : Time)
    (force : Bool) (s : Sent T) (hs : s ∈ PushNhTable ext st now force) :
    s.packet.header = pushHeader ext s.packet.body := by
  unfold PushNhTable at hs
  generalize ext.GetByte
    { Node_id := ext.SuperNodeMessage, Action := Action.UpdateNhTable, Code := 0,
      Params := st.http_NhTable_Hash } = r at hs
  obtain ⟨body, err⟩ := r
  cases err with
  | some e => simp at hs
  | none =>
    simp only at hs
    rw [PushNhTable_loop_mem] at hs
    obtain ⟨e, _, _, _, h3⟩ := hs
    rw [PushNhTable_sendOne_mem, PushNhTable_sendOne_mem] at h3
    rcases h3 with ⟨peer, _, _, rfl⟩ | ⟨peer, _, _, rfl⟩ <;> rfl

theorem PushPeerinfo_header {T : Types} (ext : Ext T) (st : HttpObj T) (now : Time)
    (force : Bool) (s : Sent T) (hs : s ∈ PushPeerinfo ext st now force) :
    s.packet.header = pushHeader ext s.packet.body := by
  unfold PushPeerinfo at hs
  generalize ext.GetByte
    { Node_id := ext.SuperNodeMessage, Action := Action.UpdatePeer, Code := 0,
      Params := st.http_PeerInfo_hash } = r at hs
  obtain ⟨body, err⟩ := r
  cases err with
  | some e => simp at hs
  | none =>
    simp only at hs
    rw [PushPeerinfo_loop_mem] at hs
    obtain ⟨e, _, _, _, h3⟩ := hs
    rw [PushPeerinfo_sendOne_mem, PushPeerinfo_sendOne_mem] at h3
    rcases h3 with ⟨peer, _, rfl⟩ | ⟨peer, _, rfl⟩ <;> rfl

theorem PushServerParams.loop_header {T : Types} (ext : Ext T) (st : HttpObj T) (now : Time)
    (force : Bool) (l : List (Sigma fun _ : String => PeerState)) (s : Sent T)
    (hs : s ∈ PushServerParams.loop ext st now force l) :
    s.packet.header = pushHeader ext s.packet.body := by
  induction l with
  | nil => simp [PushServerParams.loop] at hs
  | cons e rest ih =>
    obtain ⟨pkstr, peerstate⟩ := e
    rw [PushServerParams.loop] at hs
    split at hs
    · exact ih hs
    · split at hs
      · generalize ext.GetByte
          { Node_id := ext.SuperNodeMessage, Action := Action.UpdateSuperParams, Code := 0,
            Params := peerstate.SuperParamState } = r at hs
        obtain ⟨body, err⟩ := r
        cases err with
        | some e => simp at hs
        | none =>
          simp only at hs
          rw [List.mem_append, List.mem_append, PushPeerinfo_sendOne_mem,
            PushPeerinfo_sendOne_mem] at hs
          rcases hs with ⟨peer, _, rfl⟩ | ⟨peer, _, rfl⟩ | h
          · rfl
          · rfl
          · exact ih h
      · exact ih hs

theorem super_peerdel_notify.loop_packet {T : Types} (ext : Ext T) (st : HttpObj T)
    (toDelete : Vertex) (PubKey : String) (n : Nat) (s : Sent T)
    (hs : s ∈ super_peerdel_notify.loop ext st toDelete PubKey n) :
    s.packet = super_peerdel_notify.buf ext toDelete ∧ s.pkstr = PubKey := by
  induction n with
  | zero => simp [super_peerdel_notify.loop] at hs
  | succ n ih =>
    rw [super_peerdel_notify.loop] at hs
    simp only [List.mem_cons] at hs
    rcases hs with rfl | rfl | h
    · exact ⟨rfl, rfl⟩
    · exact ⟨rfl, rfl⟩
    · exact ih h

/-- C10 (as the code has it): every packet built by `PushNhTable`, `PushPeerinfo`
and `PushServerParams` carries `Src = SuperNodeMessage`, `Dst = SuperNodeMessage`
(not the receiving peer's node id), `TTL = 0` and as length the 16-bit value of
the payload length, which is the payload length whenever that is below 65536;
every packet built by `super_peerdel_notify` carries the same except that `Dst`
is the removed node id, and `super_peerdel` starts it with the public key of that
node id. -/
theorem control_packet_headers {T : Types} (ext : Ext T) (st : HttpObj T) (now : Time)
    (force : Bool) (toDelete : Vertex) (PubKey : String) :
    (∀ s ∈ PushNhTable ext st now force ++
        (PushPeerinfo ext st now force ++ PushServerParams ext st now force),
      s.packet.header.Src = ext.SuperNodeMessage ∧
      s.packet.header.Dst = ext.SuperNodeMessage ∧
      s.packet.header.TTL = 0 ∧
      s.packet.header.PacketLength = s.packet.body.length % 65536 ∧
      (s.packet.body.length < 65536 →
        s.packet.header.PacketLength = s.packet.body.length)) ∧
    (∀ s ∈ (super_peerdel_notify ext st toDelete PubKey).2,
      s.pkstr = PubKey ∧
      s.packet.header.Src = ext.SuperNodeMessage ∧
      s.packet.header.Dst = toDelete ∧
      s.packet.header.TTL = 0 ∧
      s.packet.header.PacketLength = s.packet.body.length % 65536 ∧
      (s.packet.body.length < 65536 →
        s.packet.header.PacketLength = s.packet.body.length)) ∧
    (∀ info, st.http_PeerID2Info.lookup toDelete = some info →
      (super_peerdel st toDelete).2 = some (toDelete, info.PubKey)) := by
  refine ⟨?_, ?_, ?_⟩
  · intro s hs
    have hh : s.packet.header = pushHeader ext s.packet.body := by
      rcases List.mem_append.mp hs with h | h
      · exact PushNhTable_header ext st now force s h
      · rcases List.mem_append.mp h with h | h
        · exact PushPeerinfo_header ext st now force s h
        · exact PushServerParams.loop_header ext st now force _ s h
    obtain ⟨f1, f2, f3, f4⟩ := pushHeader_fields ext s.packet.body
    rw [hh]
    exact ⟨f1, f2, f3, f4, fun hlt => by rw [f4]; exact Nat.mod_eq_of_lt hlt⟩
  · intro s hs
    obtain ⟨hp, hk⟩ := super_peerdel_notify.loop_packet ext st toDelete PubKey 10 s hs
    rw [hp]
    refine ⟨hk, rfl, rfl, rfl, rfl, fun hlt => ?_⟩
    exact Nat.mod_eq_of_lt hlt
  · intro info hl
    unfold super_peerdel
    rw [hl]

/-- C10 as stated fails: the packet `PushPeerinfo` sends to node 1 of the sample
state (public key `"A"`) carries `Dst = SuperNodeMessage`, not node id 1. -/
theorem push_header_dst_is_not_peer_vertex :
    ∃ s ∈ PushPeerinfo sampleExt stateTwoPeers 100 true,
      stateTwoPeers.http_PeerID2Info.lookup 1 = some samplePeer1 ∧
      s.pkstr = samplePeer1.PubKey ∧
      s.packet.header.Dst ≠ 1 := by
  decide

/-! ### Startup validation -/

theorem Float64.le_false_of_lt (x y : Float64) (h : Float64.lt x y = true) :
    Float64.le y x = false := by
  cases x with
  | nan => simp [Float64.lt] at h
  | num a =>
    cases y with
    | nan => simp [Float64.lt] at h
    | num b =>
      simp only [Float64.lt, decide_eq_true_eq] at h
      simp only [Float64.le, decide_eq_false_iff_not, not_le]
      exact h
    | inf n => cases n <;> simp [Float64.lt, Float64.le] at h ⊢
  | inf m =>
    cases y with
    | nan => simp [Float64.lt] at h
    | num b => cases m <;> simp [Float64.lt, Float64.le] at h ⊢
    | inf n => cases m <;> cases n <;> simp [Float64.lt, Float64.le] at h ⊢

theorem Float64.lt_false_of_le (x y : Float64) (h : Float64.le x y = true) :
    Float64.lt y x = false := by
  cases x with
  | nan => simp [Float64.le] at h
  | num a =>
    cases y with
    | nan => simp [Float64.le] at h
    | num b =>
      simp only [Float64.le, decide_eq_true_eq] at h
      simp only [Float64.lt, decide_eq_false_iff_not, not_lt]
      exact h
    | inf n => cases n <;> simp [Float64.lt, Float64.le] at h ⊢
  | inf m =>
    cases y with
    | nan => simp [Float64.le] at h
    | num b => cases m <;> simp [Float64.lt, Float64.le] at h ⊢
    | inf n => cases m <;> cases n <;> simp [Float64.lt, Float64.le] at h ⊢

theorem Super.checkOptions_ne_none_iff (sconfig : SuperConfig) :
    Super.checkOptions sconfig ≠ none ↔ Super.badOptions sconfig := by
  unfold Super.checkOptions Super.badOptions
  dsimp only
  by_cases h1 : sconfig.NodeName.utf8ByteSize > 32
  · simp [h1]
  by_cases h2 : Float64.le sconfig.PeerAliveTimeout (.num 0) = true
  · simp [h1, h2]
  by_cases h3 : Float64.lt sconfig.HttpPostInterval (.num 0) = true
  · simp [h1, h2, h3]
  by_cases h4 : Float64.lt sconfig.PeerAliveTimeout sconfig.HttpPostInterval = true
  · simp [h1, h2, h3, h4]
  by_cases h5 : Float64.le sconfig.SendPingInterval (.num 0) = true
  · simp [h1, h2, h3, h4, h5]
  by_cases h6 : Float64.le sconfig.RePushConfigInterval (.num 0) = true
  · simp [h1, h2, h3, h4, h5, h6]
  · simp [h1, h2, h3, h4, h5, h6]

theorem Super.not_badOptions_of_inRange (sconfig : SuperConfig)
    (h : Super.optionsInRange sconfig) : ¬ Super.badOptions sconfig := by
  obtain ⟨h1, h2, h3, h4, h5, h6⟩ := h
  have e2 := Float64.le_false_of_lt _ _ h2
  have e3 := Float64.lt_false_of_le _ _ h3
  have e4 := Float64.lt_false_of_le _ _ h4
  have e5 := Float64.le_false_of_lt _ _ h5
  have e6 := Float64.le_false_of_lt _ _ h6
  unfold Super.badOptions
  rw [e2, e3, e4, e5, e6]
  simp
  omega

theorem Super_of_checkOptions_some {T : Types} (ext : Ext T) (env : SuperEnv T)
    (st : HttpObj T) (useUAPI : Bool) (sconfig : SuperConfig) (e : SuperError)
    (h : Super.checkOptions sconfig = some e) :
    Super ext env st useUAPI false (sconfig, none) =
      .ok { err := some e, state := { st with http_sconfig := sconfig },
            peeradd_calls := [], tasksStarted := false } := by
  unfold Super
  simp only [Bool.false_eq_true, if_false]
  rw [h]

theorem Super_of_checkOptions_none {T : Types} (ext : Ext T) (env : SuperEnv T)
    (st : HttpObj T) (useUAPI : Bool) (sconfig : SuperConfig)
    (h : Super.checkOptions sconfig = none) :
    Super ext env st useUAPI false (sconfig, none) =
      Super.start ext env { st with http_sconfig := sconfig } useUAPI sconfig := by
  unfold Super
  simp only [Bool.false_eq_true, if_false]
  rw [h]

/-- C11: once the configuration is read (`printExample` false, `readYaml` without
error), the checks of lines 163-180 reject it exactly when the node name is
longer than 32 bytes, `PeerAliveTimeout <= 0`, `HttpPostInterval < 0`,
`HttpPostInterval > PeerAliveTimeout`, `SendPingInterval <= 0` or
`RePushConfigInterval <= 0`; `Super` then returns that error with no
`super_peeradd` call made, the registry maps as they were and no task started.
A configuration with every option in its range passes all of these checks, and
`Super` goes on to line 203. -/
theorem Super_checks_options {T : Types} (ext : Ext T) (env : SuperEnv T) (st : HttpObj T)
    (useUAPI : Bool) (sconfig : SuperConfig) :
    (Super.checkOptions sconfig ≠ none ↔ Super.badOptions sconfig) ∧
    (Super.badOptions sconfig →
      ∃ e, Super.checkOptions sconfig = some e ∧
        Super ext env st useUAPI false (sconfig, none) =
          .ok { err := some e, state := { st with http_sconfig := sconfig },
                peeradd_calls := [], tasksStarted := false }) ∧
    (Super.optionsInRange sconfig →
      Super.checkOptions sconfig = none ∧
        Super ext env st useUAPI false (sconfig, none) =
          Super.start ext env { st with http_sconfig := sconfig } useUAPI sconfig) := by
  have hiff := Super.checkOptions_ne_none_iff sconfig
  refine ⟨hiff, ?_, ?_⟩
  · intro hbad
    cases hc : Super.checkOptions sconfig with
    | none => exact absurd hc (hiff.mpr hbad)
    | some e => exact ⟨e, rfl, Super_of_checkOptions_some ext env st useUAPI sconfig e hc⟩
  · intro hin
    have hnb := Super.not_badOptions_of_inRange sconfig hin
    have hc : Super.checkOptions sconfig = none := by
      by_contra hne
      exact hnb (hiff.mp hne)
    exact ⟨hc, Super_of_checkOptions_none ext env st useUAPI sconfig hc⟩

/-- Witness for C11: the sample configuration with `PeerAliveTimeout: 0` is
rejected before any peer is admitted, and the sample configuration itself passes
the checks. -/
theorem Super_checks_options_witness :
    (∃ e, Super.checkOptions sampleConfigZeroTimeout = some e ∧
      Super sampleExt sampleSuperEnv (initState sampleConfig) false false
          (sampleConfigZeroTimeout, none) =
        .ok { err := some e
              state := { initState sampleConfig with http_sconfig := sampleConfigZeroTimeout }
              peeradd_calls := []
              tasksStarted := false }) ∧
    Super.checkOptions sampleConfig = none :=
  ⟨(Super_checks_options sampleExt sampleSuperEnv (initState sampleConfig) false
      sampleConfigZeroTimeout).2.1 (Or.inr (Or.inl (by decide))),
    ((Super_checks_options sampleExt sampleSuperEnv (initState sampleConfig) false
      sampleConfig).2.2
        ⟨by decide, by decide, by decide, by decide, by decide, by decide⟩).1⟩

/-! ### A nil next hop in the table -/

/-- C12 (the code's behaviour): `checkNhTable` is not total.  When the first two
roster peers have different node ids and the table stores a nil pointer for that
ordered pair, line 47 dereferences it and `checkNhTable` panics instead of
returning nil or an error. -/
theorem checkNhTable_nil_entry_panics (NhTable : NextHopTable) (peer1 peer2 : SuperPeerInfo)
    (rest : List SuperPeerInfo) (row : GoMap Vertex (Option Vertex))
    (hne : peer1.NodeID ≠ peer2.NodeID)
    (hrow : NhTable.lookup peer1.NodeID = some row)
    (hnil : row.lookup peer2.NodeID = some none) :
    checkNhTable NhTable (peer1 :: peer2 :: rest) = .error Panic.nilDeref := by
  have hinner : checkNhTable.inner NhTable (checkNhTable.allpeer (peer1 :: peer2 :: rest))
      peer1 (peer1 :: peer2 :: rest) = .error Panic.nilDeref := by
    rw [checkNhTable.inner, if_pos rfl, checkNhTable.inner, if_neg hne]
    dsimp only
    rw [hrow]
    dsimp only
    rw [hnil]
  unfold checkNhTable
  rw [checkNhTable.outer, hinner]

/-- Witness for C12: the roster of the example configuration with a table whose
entry `[1][2]` is nil; `checkNhTable` panics, and so does `Super` in static
mode. -/
theorem checkNhTable_nil_entry_panics_witness :
    checkNhTable nilNextHopTable examplePeers = .error Panic.nilDeref ∧
    Super sampleExt sampleSuperEnv (initState sampleConfig) false false
        (sampleConfigStaticNil, none) = .error Panic.nilDeref :=
  ⟨checkNhTable_nil_entry_panics nilNextHopTable _ _ [] (AList.insert 2 none ∅)
      (by decide) (by rfl) (by rfl), by rfl⟩

end EtherGuard
